import Mathlib

/-!
Verification development for the `gamepads` crate (fornwall/gamepads).

The Rust sources are shallowly embedded: `f32` values are modelled as exact
rationals (`ℚ`), `u32` bitmasks as `Nat` (all bit positions used are below 32,
so no wrap-around can occur on `|||`/`&&&`, and the `u32` complement `!bit`
is written explicitly as `xor` with the 32-bit all-ones mask), `usize` as
`Nat` with the `usize::MAX` sentinel spelled out, and the `u8` connected-pad
counter as a `Nat` (the code keeps it at most 8).  The opaque `gilrs`
polling instance is modelled by the two queries the library makes of it
(`axis_code` and `deadzone`), and the stream of `gilrs` events drained by
`poll` is passed to the model as an explicit list.
-/

namespace Gamepads

/-- Mirrors `const MAX_GAMEPADS: usize = 8` in `src/lib.rs`. -/
def MAX_GAMEPADS : Nat := 8

/-- The value of `usize::MAX`, used in `src/lib.rs` as the initial sentinel
content of `gilrs_gamepad_ids: [usize; MAX_GAMEPADS]`. -/
def USIZE_MAX : Nat := 2 ^ 64 - 1

/-- The 32-bit all-ones mask; `!bit` on a Rust `u32` is `U32_MASK ^^^ bit`
for bit values below `2 ^ 32`. -/
def U32_MASK : Nat := 2 ^ 32 - 1

/-- Complement of a `u32` value (the Rust `!` operator on `u32`). -/
def compl32 (n : Nat) : Nat := U32_MASK ^^^ n

/-- The `Button` enumeration of `src/lib.rs` (17 variants, in declaration
order, so that `button as u32` is the variant's position). -/
inductive Button where
  | ActionDown
  | ActionRight
  | ActionLeft
  | ActionUp
  | FrontLeftUpper
  | FrontRightUpper
  | FrontLeftLower
  | FrontRightLower
  | LeftCenterCluster
  | RightCenterCluster
  | LeftStick
  | RightStick
  | DPadUp
  | DPadDown
  | DPadLeft
  | DPadRight
  | Mode
  deriving DecidableEq, Fintype

/-- The discriminant `button as u32` of `Button` (declaration order). -/
def Button.code : Button → Nat
  | .ActionDown => 0
  | .ActionRight => 1
  | .ActionLeft => 2
  | .ActionUp => 3
  | .FrontLeftUpper => 4
  | .FrontRightUpper => 5
  | .FrontLeftLower => 6
  | .FrontRightLower => 7
  | .LeftCenterCluster => 8
  | .RightCenterCluster => 9
  | .LeftStick => 10
  | .RightStick => 11
  | .DPadUp => 12
  | .DPadDown => 13
  | .DPadLeft => 14
  | .DPadRight => 15
  | .Mode => 16

/-- The `gilrs::Button` enumeration (the backend's native button vocabulary),
as matched by `Button::from_gilrs` in `src/lib.rs`. -/
inductive GButton where
  | South
  | East
  | North
  | West
  | C
  | Z
  | LeftTrigger
  | LeftTrigger2
  | RightTrigger
  | RightTrigger2
  | Select
  | Start
  | Mode
  | LeftThumb
  | RightThumb
  | DPadUp
  | DPadDown
  | DPadLeft
  | DPadRight
  | Unknown
  deriving DecidableEq, Fintype

/-- Mirrors `Button::from_gilrs` in `src/lib.rs`: the partial mapping from the
backend's native buttons to the crate's logical buttons (unmapped native
buttons yield `none`). -/
def Button.from_gilrs : GButton → Option Button
  | .South => some .ActionDown
  | .East => some .ActionRight
  | .West => some .ActionLeft
  | .North => some .ActionUp
  | .LeftTrigger => some .FrontLeftUpper
  | .RightTrigger => some .FrontRightUpper
  | .LeftTrigger2 => some .FrontLeftLower
  | .RightTrigger2 => some .FrontRightLower
  | .Select => some .LeftCenterCluster
  | .Start => some .RightCenterCluster
  | .LeftThumb => some .LeftStick
  | .RightThumb => some .RightStick
  | .DPadUp => some .DPadUp
  | .DPadDown => some .DPadDown
  | .DPadLeft => some .DPadLeft
  | .DPadRight => some .DPadRight
  | .Mode => some .Mode
  | _ => none

/-- The `gilrs::Axis` enumeration (the backend's native axis vocabulary). -/
inductive GAxis where
  | LeftStickX
  | LeftStickY
  | LeftZ
  | RightStickX
  | RightStickY
  | RightZ
  | DPadX
  | DPadY
  | Unknown
  deriving DecidableEq

/-- The `match axis` in the `AxisChanged` arm of `Gamepads::poll`
(`src/lib.rs` lines 562-568): which slot-axis index a native axis drives. -/
def axisIndex : GAxis → Option (Fin 4)
  | .LeftStickX => some 0
  | .LeftStickY => some 1
  | .RightStickX => some 2
  | .RightStickY => some 3
  | _ => none

/-- The non-wasm `Gamepad` struct of `src/lib.rs` (`id` is the `GamepadId`
byte; `axes` are `f32` values modelled as rationals). -/
structure Gamepad where
  id : Nat
  connected : Bool
  pressed_bits : Nat
  axes : Fin 4 → ℚ
  just_pressed_bits : Nat

/-- Mirrors `Gamepad::is_just_pressed` (non-wasm branch, `src/lib.rs`
lines 238-248). -/
def Gamepad.is_just_pressed (g : Gamepad) (button : Button) : Bool :=
  (g.just_pressed_bits &&& (1 <<< button.code)) != 0

/-- Mirrors `Gamepad::is_currently_pressed` (`src/lib.rs` lines 251-254). -/
def Gamepad.is_currently_pressed (g : Gamepad) (button : Button) : Bool :=
  (g.pressed_bits &&& (1 <<< button.code)) != 0

/-- The queries `Gamepads::poll` makes of the opaque `gilrs::Gilrs` instance:
`gilrs_instance.gamepad(id).axis_code(axis)` and
`gilrs_instance.gamepad(id).deadzone(code)`. -/
structure GilrsInfo where
  axis_code : Nat → GAxis → Option Nat
  deadzone : Nat → Nat → Option ℚ

/-- The non-wasm `Gamepads` struct of `src/lib.rs`.  `playing_ff_effects`
pairs an effect handle (opaque, modelled as a `Nat` tag) with its expiry
timestamp in milliseconds (`u128`, modelled as `Nat`). -/
structure State where
  gamepads : Fin 8 → Gamepad
  gilrs_gamepad_ids : Fin 8 → Nat
  gilrs_instance : GilrsInfo
  num_connected_pads : Nat
  deadzones : Fin 8 → Fin 4 → ℚ
  playing_ff_effects : List (Nat × Nat)

/-- A `gilrs::EventType`, as matched by `Gamepads::poll`.  `Other` stands for
the variants handled by the wildcard `_ => {}` arm. -/
inductive GEventType where
  | Connected
  | Disconnected
  | ButtonPressed (button : GButton)
  | ButtonReleased (button : GButton)
  | AxisChanged (axis : GAxis) (value : ℚ)
  | Other
  deriving DecidableEq

/-- A `gilrs::Event`: the gamepad id it concerns plus its event type. -/
structure GEvent where
  id : Nat
  event : GEventType
  deriving DecidableEq

/-- The scan loop of `Gamepads::find_or_insert` (`src/lib.rs` lines 372-376):
`for i in 0..MAX_GAMEPADS { if ids[i] == handle { return Some(i) } }`. -/
def tableLookup (s : State) (gilrs_gamepad_id : Nat) : Option (Fin 8) :=
  (List.finRange MAX_GAMEPADS).find? (fun i => s.gilrs_gamepad_ids i == gilrs_gamepad_id)

/-- Mirrors `Gamepads::find_or_insert` (`src/lib.rs` lines 370-385): linear
scan of the id table for the handle, else claim the next slot if fewer than
`MAX_GAMEPADS` are taken.  The source tests `num_connected_pads ==
MAX_GAMEPADS as u8`; since the `u8` counter never exceeds 8, that equality
test is rendered as the complement of `num_connected_pads < MAX_GAMEPADS`
(the branch needs the bound anyway to index the array without panicking). -/
def find_or_insert (s : State) (gilrs_gamepad_id : Nat) : Option (Fin 8) × State :=
  match tableLookup s gilrs_gamepad_id with
  | some i => (some i, s)
  | none =>
    if hn : s.num_connected_pads < MAX_GAMEPADS then
      let index : Fin 8 := ⟨s.num_connected_pads, hn⟩
      (some index,
        { s with
          num_connected_pads := s.num_connected_pads + 1
          gilrs_gamepad_ids := Function.update s.gilrs_gamepad_ids index gilrs_gamepad_id })
    else (none, s)

/-- Replace one slot's gamepad record. -/
def setPad (s : State) (i : Fin 8) (g : Gamepad) : State :=
  { s with gamepads := Function.update s.gamepads i g }

/-- The `(zone, axis)` pair list iterated by the `Connected` arm of
`Gamepads::poll` (`src/lib.rs` lines 521-526).  Note that the source pairs
zone 2 with `RightStickY` (not `RightStickX`). -/
def deadzoneZones : List (Fin 4 × GAxis) :=
  [(0, .LeftStickX), (1, .LeftStickY), (2, .RightStickY), (3, .RightStickY)]

/-- Rust `f32::signum` restricted to non-NaN inputs: `-1` for negative
values, `1` otherwise (`f32::signum(0.0)` is `1.0`). -/
def rsignum (q : ℚ) : ℚ := if q < 0 then -1 else 1

/-- The axis-normalization expression of the `AxisChanged` arm
(`src/lib.rs` lines 570-577): zero inside the deadzone, otherwise
`value.signum().mul_add(-deadzone, value) / (1. - deadzone)`. -/
def normalizeAxis (value deadzone : ℚ) : ℚ :=
  if |value| < deadzone then 0
  else (rsignum value * -deadzone + value) / (1 - deadzone)

/-- One iteration of the `Connected` arm's deadzone-discovery loop
(`src/lib.rs` lines 521-535) for the `(zone, axis)` pair `za`. -/
def storeDeadzone (gid : Nat) (gamepad_idx : Fin 8) (t : State) (za : Fin 4 × GAxis) : State :=
  match t.gilrs_instance.axis_code gid za.2 with
  | some code =>
    { t with
      deadzones := Function.update t.deadzones gamepad_idx
        (Function.update (t.deadzones gamepad_idx) za.1
          ((t.gilrs_instance.deadzone gid code).getD 0)) }
  | none => t

/-- One iteration of the event-draining loop of `Gamepads::poll`
(`src/lib.rs` lines 515-582): dispatch on the event type. -/
def processEvent (s : State) (e : GEvent) : State :=
  match e.event with
  | .Connected =>
    match find_or_insert s e.id with
    | (some gamepad_idx, s1) =>
      let s2 := setPad s1 gamepad_idx { s1.gamepads gamepad_idx with connected := true }
      deadzoneZones.foldl (storeDeadzone e.id gamepad_idx) s2
    | (none, s1) => s1
  | .Disconnected =>
    match find_or_insert s e.id with
    | (some gamepad_idx, s1) =>
      setPad s1 gamepad_idx { s1.gamepads gamepad_idx with connected := false }
    | (none, s1) => s1
  | .ButtonPressed button =>
    match find_or_insert s e.id with
    | (some gamepad_idx, s1) =>
      match Button.from_gilrs button with
      | some b =>
        let bit := 1 <<< b.code
        setPad s1 gamepad_idx
          { s1.gamepads gamepad_idx with
            pressed_bits := (s1.gamepads gamepad_idx).pressed_bits ||| bit
            just_pressed_bits := (s1.gamepads gamepad_idx).just_pressed_bits ||| bit }
      | none => s1
    | (none, s1) => s1
  | .ButtonReleased button =>
    match find_or_insert s e.id with
    | (some gamepad_idx, s1) =>
      match Button.from_gilrs button with
      | some b =>
        let bit := 1 <<< b.code
        setPad s1 gamepad_idx
          { s1.gamepads gamepad_idx with
            pressed_bits := (s1.gamepads gamepad_idx).pressed_bits &&& compl32 bit }
      | none => s1
    | (none, s1) => s1
  | .AxisChanged axis value =>
    match find_or_insert s e.id with
    | (some gamepad_idx, s1) =>
      match axisIndex axis with
      | some axis_idx =>
        let deadzone := s1.deadzones gamepad_idx axis_idx
        setPad s1 gamepad_idx
          { s1.gamepads gamepad_idx with
            axes := Function.update (s1.gamepads gamepad_idx).axes axis_idx
              (normalizeAxis value deadzone) }
      | none => s1
    | (none, s1) => s1
  | .Other => s

/-- Drain one tick's worth of backend events in order. -/
def processEvents (s : State) (events : List GEvent) : State :=
  events.foldl processEvent s

/-- The clearing loop at the top of the non-wasm `Gamepads::poll`
(`src/lib.rs` lines 511-513): zero every slot's just-pressed bitmask. -/
def beginTick (s : State) : State :=
  { s with gamepads := fun i => { s.gamepads i with just_pressed_bits := 0 } }

/-- The non-wasm `Gamepads::poll` (`src/lib.rs` lines 508-583): clear all
just-pressed bitmasks, then drain the backend's event queue for this tick. -/
def poll (s : State) (events : List GEvent) : State :=
  processEvents (beginTick s) events

/-- A sequence of ticks, each with its drained event list. -/
def runTicks (s : State) (ticks : List (List GEvent)) : State :=
  ticks.foldl poll s

/-! ## Haptic scheduler (`Gamepads::rumble`, non-wasm, `src/lib.rs` 447-501) -/

/-- Rust `Vec::swap_remove(i)`: overwrite position `i` with the last element,
then drop the last position. -/
def swapRemove (l : List (Nat × Nat)) (i : Nat) : List (Nat × Nat) :=
  (l.set i (l.getD (l.length - 1) (0, 0))).dropLast

/-- The purge loop of `Gamepads::rumble` (`src/lib.rs` lines 455-459):
`for i in (0..len).rev() { if effects[i].1 < now_ms { swap_remove(i) } }`.
The counter argument is `i + 1` when index `i` is about to be examined. -/
def purgeGo (now_ms : Nat) : Nat → List (Nat × Nat) → List (Nat × Nat)
  | 0, l => l
  | i + 1, l =>
    purgeGo now_ms i (if (l.getD i (0, 0)).2 < now_ms then swapRemove l i else l)

/-- Purge expired effects from the live-effects list. -/
def purgeExpired (l : List (Nat × Nat)) (now_ms : Nat) : List (Nat × Nat) :=
  purgeGo now_ms l.length l

/-- The effect of `Gamepads::rumble` on `playing_ff_effects`
(`src/lib.rs` lines 447-501): purge old effects, then, when the backend
accepted the effect and `play()` succeeded (`submit_ok`), push the new
effect handle with expiry `now_ms + duration_ms + start_delay_ms`. -/
def rumbleEffects (l : List (Nat × Nat)) (now_ms duration_ms start_delay_ms : Nat)
    (submit_ok : Bool) (effect : Nat) : List (Nat × Nat) :=
  let purged := purgeExpired l now_ms
  if submit_ok then purged ++ [(effect, now_ms + duration_ms + start_delay_ms)]
  else purged

/-- `Gamepads::rumble` at the state level: only `playing_ff_effects` is
mutated (the effect submission itself goes to the opaque backend). -/
def rumbleState (s : State) (now_ms duration_ms start_delay_ms : Nat)
    (submit_ok : Bool) (effect : Nat) : State :=
  { s with
    playing_ff_effects :=
      rumbleEffects s.playing_ff_effects now_ms duration_ms start_delay_ms submit_ok effect }

/-! ## Construction, queries and reachability (`src/lib.rs` 329-402) -/

/-- The field initializers in `Gamepads::new` (`src/lib.rs` lines 330-351):
slot `idx` gets id `idx`, disconnected, zero bitmasks and axes; the id table
is filled with the `usize::MAX` sentinel; the deadzone table is zeroed. -/
def initState (info : GilrsInfo) : State where
  gamepads := fun idx =>
    { id := idx.val
      connected := false
      pressed_bits := 0
      axes := fun _ => 0
      just_pressed_bits := 0 }
  gilrs_gamepad_ids := fun _ => USIZE_MAX
  gilrs_instance := info
  num_connected_pads := 0
  deadzones := fun _ _ => 0
  playing_ff_effects := []

/-- The rest of `Gamepads::new` (`src/lib.rs` lines 352-367): run one poll,
then mark the initially connected gilrs pads; `initial_pads` is the collected
`(id, is_connected)` list. -/
def new (info : GilrsInfo) (init_events : List GEvent)
    (initial_pads : List (Nat × Bool)) : State :=
  let s := poll (initState info) init_events
  initial_pads.foldl
    (fun t p =>
      match find_or_insert t p.1 with
      | (some i, t1) => setPad t1 i { t1.gamepads i with connected := p.2 }
      | (none, t1) => t1)
    s

/-- Mirrors `Gamepads::get` (`src/lib.rs` lines 391-394).  The Rust indexing
`self.gamepads[gamepad_id.0 as usize]` panics for an id of 8 or more; the
panic is modelled as `Except.error ()`. -/
def get (s : State) (gamepad_id : Nat) : Except Unit (Option Gamepad) :=
  if h : gamepad_id < MAX_GAMEPADS then
    let pad := s.gamepads ⟨gamepad_id, h⟩
    .ok (if pad.connected then some pad else none)
  else .error ()

/-- Mirrors `Gamepads::all` (`src/lib.rs` lines 400-402): the connected
gamepads, in slot order. -/
def allPads (s : State) : List Gamepad :=
  ((List.finRange MAX_GAMEPADS).map s.gamepads).filter (·.connected)

/-- States reachable through the public surface: construction followed by any
interleaving of polls and rumble calls (queries take `&self` and mutate
nothing). -/
inductive Reachable : State → Prop where
  | new (info : GilrsInfo) (init_events : List GEvent) (initial_pads : List (Nat × Bool)) :
      Reachable (new info init_events initial_pads)
  | poll (s : State) (events : List GEvent) : Reachable s → Reachable (poll s events)
  | rumble (s : State) (now_ms duration_ms start_delay_ms : Nat)
      (submit_ok : Bool) (effect : Nat) : Reachable s →
      Reachable (rumbleState s now_ms duration_ms start_delay_ms submit_ok effect)

/-! ## Snapshot backend (wasm): `src/lib.rs` 153-162, 238-248, 585-594 -/

/-- The wasm variant of the `Gamepad` struct (`src/lib.rs` lines 151-162):
the `just_pressed_bits` field is replaced by `last_pressed_bits`. -/
structure WGamepad where
  id : Nat
  connected : Bool
  pressed_bits : Nat
  axes : Fin 4 → ℚ
  last_pressed_bits : Nat

/-- Mirrors the wasm branch of `Gamepad::is_just_pressed` (`src/lib.rs`
lines 238-243): pressed now and not pressed at the previous tick. -/
def WGamepad.is_just_pressed (g : WGamepad) (button : Button) : Bool :=
  (g.pressed_bits &&& (1 <<< button.code)) != 0 &&
    (g.last_pressed_bits &&& (1 <<< button.code)) == 0

/-- Mirrors `Gamepad::is_currently_pressed` on the wasm struct. -/
def WGamepad.is_currently_pressed (g : WGamepad) (button : Button) : Bool :=
  (g.pressed_bits &&& (1 <<< button.code)) != 0

/-- One per-slot record of the host snapshot (the external writer fills
`connected`, `axes` and `pressed_bits` of each slot; `last_pressed_bits`
belongs to the adapter). -/
structure SnapshotRecord where
  connected : Bool
  axes : Fin 4 → ℚ
  pressed_bits : Nat

/-- The copy loop at the top of the wasm `Gamepads::poll` (`src/lib.rs`
lines 587-589): save every slot's pressed-bitmask as last tick's bitmask. -/
def saveLastPressed (pads : Fin 8 → WGamepad) : Fin 8 → WGamepad :=
  fun i => { pads i with last_pressed_bits := (pads i).pressed_bits }

/-- The host overwrite performed by `getGamepads(pointer)` (`src/lib.rs`
lines 590-594): the external source rewrites each slot's connectivity, axes
and pressed-bitmask. -/
def applySnapshot (pads : Fin 8 → WGamepad) (snap : Fin 8 → SnapshotRecord) :
    Fin 8 → WGamepad :=
  fun i =>
    { pads i with
      connected := (snap i).connected
      axes := (snap i).axes
      pressed_bits := (snap i).pressed_bits }

/-- The wasm `Gamepads::poll` (`src/lib.rs` lines 585-594): save last-tick
bitmasks for all slots, then let the host snapshot overwrite the state. -/
def pollSnapshot (pads : Fin 8 → WGamepad) (snap : Fin 8 → SnapshotRecord) :
    Fin 8 → WGamepad :=
  applySnapshot (saveLastPressed pads) snap

/-! ## Raw-input backend (`src/backend_android_winit.rs`) -/

/-- The state fields touched by the android/winit backend: the gamepad
array, the winit device-id table and the connected-pad counter. -/
structure AState where
  gamepads : Fin 8 → Gamepad
  android_winit_gamepad_ids : Fin 8 → Nat
  num_connected_pads : Nat

/-- The android/winit `find_or_insert` (`src/backend_android_winit.rs`
lines 100-114); identical in shape to the gilrs one. -/
def afind_or_insert (s : AState) (winit_device_id : Nat) : Option (Fin 8) × AState :=
  match (List.finRange MAX_GAMEPADS).find?
      (fun i => s.android_winit_gamepad_ids i == winit_device_id) with
  | some i => (some i, s)
  | none =>
    if hn : s.num_connected_pads < MAX_GAMEPADS then
      let index : Fin 8 := ⟨s.num_connected_pads, hn⟩
      (some index,
        { s with
          num_connected_pads := s.num_connected_pads + 1
          android_winit_gamepad_ids :=
            Function.update s.android_winit_gamepad_ids index winit_device_id })
    else (none, s)

/-- The `(val, negative_button, positive_button)` triple list of the
`AxisUpdate` arm (`src/backend_android_winit.rs` lines 66-69).  Note that the
source reads `values[0]` in both triples. -/
def dpadTriples (values : List ℚ) : List (ℚ × Button × Button) :=
  [(values.getD 0 0, .DPadLeft, .DPadRight),
   (values.getD 0 0, .DPadUp, .DPadDown)]

/-- One iteration of the D-pad loop in the `AxisUpdate` arm
(`src/backend_android_winit.rs` lines 70-83): sign comparison drives the
negative/positive direction bits as pseudo-digital presses. -/
def applyDpadTriple (g : Gamepad) (t : ℚ × Button × Button) : Gamepad :=
  let negative_bit := 1 <<< t.2.1.code
  let posive_bit := 1 <<< t.2.2.code
  if t.1 < 0 then
    { g with
      pressed_bits := (g.pressed_bits ||| negative_bit) &&& compl32 posive_bit
      just_pressed_bits := g.just_pressed_bits ||| negative_bit }
  else if t.1 > 0 then
    { g with
      pressed_bits := (g.pressed_bits ||| posive_bit) &&& compl32 negative_bit
      just_pressed_bits := g.just_pressed_bits ||| posive_bit }
  else
    { g with pressed_bits := g.pressed_bits &&& compl32 (negative_bit ||| posive_bit) }

/-- The whole `WindowEvent::AxisUpdate` arm (`src/backend_android_winit.rs`
lines 63-88): resolve the device to a slot, run the two D-pad triples, then
copy `values[2..=5]` into the slot's axis array. -/
def onAxisUpdate (s : AState) (device_id : Nat) (values : List ℚ) : AState :=
  match afind_or_insert s device_id with
  | (some gamepad_idx, s1) =>
    let g := (dpadTriples values).foldl applyDpadTriple (s1.gamepads gamepad_idx)
    let g := { g with axes := fun j => values.getD (j.val + 2) 0 }
    { s1 with gamepads := Function.update s1.gamepads gamepad_idx g }
  | (none, s1) => s1

/-! ## Bitmask lemmas -/

theorem and_shift_bne (x c : Nat) : ((x &&& (1 <<< c)) != 0) = x.testBit c := by
  simp only [Nat.shiftLeft_eq, one_mul, Nat.and_two_pow, bne_iff_ne, ne_eq]
  cases h : x.testBit c <;> simp [h, Nat.pos_iff_ne_zero, pow_ne_zero]

theorem shift_testBit (c k : Nat) : (1 <<< c).testBit k = decide (c = k) := by
  rw [Nat.shiftLeft_eq, one_mul, Nat.testBit_two_pow]

theorem and_compl32_testBit (x c k : Nat) (hk : k < 32) :
    (x &&& compl32 (1 <<< c)).testBit k = (x.testBit k && !decide (c = k)) := by
  rw [compl32, U32_MASK, Nat.testBit_and, Nat.testBit_xor, Nat.testBit_two_pow_sub_one,
    Nat.shiftLeft_eq, one_mul, Nat.testBit_two_pow]
  simp [hk]

theorem Button.code_lt (b : Button) : b.code < 32 := by
  cases b <;> decide

theorem Button.code_injective (b b' : Button) (h : b.code = b'.code) : b = b' := by
  revert h
  cases b <;> cases b' <;> decide

theorem is_just_pressed_testBit (g : Gamepad) (b : Button) :
    g.is_just_pressed b = g.just_pressed_bits.testBit b.code := by
  rw [Gamepad.is_just_pressed, and_shift_bne]

theorem is_currently_pressed_testBit (g : Gamepad) (b : Button) :
    g.is_currently_pressed b = g.pressed_bits.testBit b.code := by
  rw [Gamepad.is_currently_pressed, and_shift_bne]

/-! ## Slot-table lemmas -/

theorem tableLookup_eq_none {s : State} {hdl : Nat} :
    tableLookup s hdl = none ↔ ∀ j : Fin 8, s.gilrs_gamepad_ids j ≠ hdl := by
  rw [tableLookup, List.find?_eq_none]
  constructor
  · intro h j
    simpa using h j (List.mem_finRange j)
  · intro h j _
    simpa using h j

theorem tableLookup_some {s : State} {hdl : Nat} {i : Fin 8}
    (h : tableLookup s hdl = some i) : s.gilrs_gamepad_ids i = hdl := by
  simpa using List.find?_some h

theorem tableLookup_unique {s : State} {hdl : Nat} {i : Fin 8}
    (hi : s.gilrs_gamepad_ids i = hdl)
    (huniq : ∀ j : Fin 8, j ≠ i → s.gilrs_gamepad_ids j ≠ hdl) :
    tableLookup s hdl = some i := by
  cases heq : tableLookup s hdl with
  | none => exact absurd hi (tableLookup_eq_none.mp heq i)
  | some j =>
    have hj := tableLookup_some heq
    by_cases hji : j = i
    · rw [hji]
    · exact absurd hj (huniq j hji)

theorem find_or_insert_found {s : State} {hdl : Nat} {i : Fin 8}
    (h : tableLookup s hdl = some i) : find_or_insert s hdl = (some i, s) := by
  rw [find_or_insert, h]

theorem find_or_insert_insert {s : State} {hdl : Nat}
    (h : tableLookup s hdl = none) (hn : s.num_connected_pads < MAX_GAMEPADS) :
    find_or_insert s hdl =
      (some ⟨s.num_connected_pads, hn⟩,
        { s with
          num_connected_pads := s.num_connected_pads + 1
          gilrs_gamepad_ids :=
            Function.update s.gilrs_gamepad_ids ⟨s.num_connected_pads, hn⟩ hdl }) := by
  rw [find_or_insert, h]
  simp [hn]

theorem find_or_insert_full {s : State} {hdl : Nat}
    (h : tableLookup s hdl = none) (hn : ¬ s.num_connected_pads < MAX_GAMEPADS) :
    find_or_insert s hdl = (none, s) := by
  rw [find_or_insert, h]
  simp [hn]

theorem find_or_insert_gamepads (s : State) (hdl : Nat) :
    ((find_or_insert s hdl).2).gamepads = s.gamepads := by
  rw [find_or_insert]
  cases tableLookup s hdl <;> [skip; rfl]
  dsimp only
  split <;> rfl

theorem find_or_insert_deadzones (s : State) (hdl : Nat) :
    ((find_or_insert s hdl).2).deadzones = s.deadzones := by
  rw [find_or_insert]
  cases tableLookup s hdl <;> [skip; rfl]
  dsimp only
  split <;> rfl

theorem find_or_insert_instance (s : State) (hdl : Nat) :
    ((find_or_insert s hdl).2).gilrs_instance = s.gilrs_instance := by
  rw [find_or_insert]
  cases tableLookup s hdl <;> [skip; rfl]
  dsimp only
  split <;> rfl

/-- The slot-table invariant maintained by the code: the `u8` counter stays
at most 8, an entry is real (not the `usize::MAX` sentinel) exactly below
the counter, and real entries are pairwise distinct. -/
def Inv (s : State) : Prop :=
  s.num_connected_pads ≤ MAX_GAMEPADS ∧
  (∀ j : Fin 8, (j.val < s.num_connected_pads ↔ s.gilrs_gamepad_ids j ≠ USIZE_MAX)) ∧
  (∀ j k : Fin 8, j ≠ k → s.gilrs_gamepad_ids j ≠ USIZE_MAX →
    s.gilrs_gamepad_ids j ≠ s.gilrs_gamepad_ids k)

instance (s : State) : Decidable (Inv s) := by
  unfold Inv
  infer_instance

/-- The handle `hdl` owns slot `i` and no other slot. -/
def SlotAssigned (s : State) (i : Fin 8) (hdl : Nat) : Prop :=
  s.gilrs_gamepad_ids i = hdl ∧ ∀ j : Fin 8, j ≠ i → s.gilrs_gamepad_ids j ≠ hdl

instance (s : State) (i : Fin 8) (hdl : Nat) : Decidable (SlotAssigned s i hdl) := by
  unfold SlotAssigned
  infer_instance

theorem slotAssigned_lookup {s : State} {i : Fin 8} {hdl : Nat}
    (h : SlotAssigned s i hdl) : tableLookup s hdl = some i :=
  tableLookup_unique h.1 h.2

theorem lookup_slotAssigned {s : State} {i : Fin 8} {hdl : Nat}
    (hInv : Inv s) (hdl_ne : hdl ≠ USIZE_MAX) (h : tableLookup s hdl = some i) :
    SlotAssigned s i hdl := by
  have hi := tableLookup_some h
  refine ⟨hi, fun j hj hcontra => ?_⟩
  have hne : s.gilrs_gamepad_ids j ≠ USIZE_MAX := by rw [hcontra]; exact hdl_ne
  exact hInv.2.2 j i hj hne (hcontra.trans hi.symm)

theorem Inv_find_or_insert {s : State} {hdl : Nat} (hInv : Inv s)
    (hdl_ne : hdl ≠ USIZE_MAX) : Inv ((find_or_insert s hdl).2) := by
  cases heq : tableLookup s hdl with
  | some i => rw [find_or_insert_found heq]; exact hInv
  | none =>
    by_cases hn : s.num_connected_pads < MAX_GAMEPADS
    · rw [find_or_insert_insert heq hn]
      obtain ⟨hle, hiff, hdist⟩ := hInv
      have hnone := tableLookup_eq_none.mp heq
      set idx : Fin 8 := ⟨s.num_connected_pads, hn⟩ with hidx
      refine ⟨hn, fun j => ?_, fun j k hjk hj => ?_⟩
      · dsimp only
        by_cases hji : j = idx
        · subst hji
          simp [Function.update_same, hdl_ne, hidx]
        · rw [Function.update_noteq hji]
          have hjv : j.val ≠ s.num_connected_pads := fun hv =>
            hji (Fin.ext (by simpa [hidx] using hv))
          constructor
          · intro hlt
            exact (hiff j).mp (Nat.lt_of_le_of_ne (Nat.le_of_lt_succ hlt) hjv)
          · intro hne
            exact Nat.lt_succ_of_lt ((hiff j).mpr hne)
      · dsimp only at hj ⊢
        by_cases hji : j = idx
        · subst hji
          rw [Function.update_same]
          by_cases hki : k = idx
          · exact absurd hki.symm (by simpa [eq_comm] using hjk)
          · rw [Function.update_noteq hki]
            exact fun hc => hnone k hc.symm
        · rw [Function.update_noteq hji] at hj ⊢
          by_cases hki : k = idx
          · subst hki
            rw [Function.update_same]
            exact fun hc => hnone j hc
          · rw [Function.update_noteq hki]
            exact hdist j k hjk hj
    · rw [find_or_insert_full heq hn]
      exact hInv

theorem SlotAssigned_find_or_insert {s : State} {i : Fin 8} {hdl hdl2 : Nat}
    (hInv : Inv s) (hsa : SlotAssigned s i hdl) (hdl_ne : hdl ≠ USIZE_MAX) :
    SlotAssigned ((find_or_insert s hdl2).2) i hdl := by
  cases heq : tableLookup s hdl2 with
  | some j => rw [find_or_insert_found heq]; exact hsa
  | none =>
    by_cases hn : s.num_connected_pads < MAX_GAMEPADS
    · rw [find_or_insert_insert heq hn]
      have hnone := tableLookup_eq_none.mp heq
      set idx : Fin 8 := ⟨s.num_connected_pads, hn⟩ with hidx
      have hidx_sent : s.gilrs_gamepad_ids idx = USIZE_MAX := by
        by_contra hne
        exact absurd ((hInv.2.1 idx).mpr hne) (by simp [hidx])
      have hii : i ≠ idx := fun hc => hdl_ne (by rw [← hsa.1, hc, hidx_sent])
      refine ⟨?_, fun j hj => ?_⟩
      · dsimp only
        rw [Function.update_noteq hii]
        exact hsa.1
      · dsimp only
        by_cases hji : j = idx
        · subst hji
          rw [Function.update_same]
          exact fun hc => hnone i (by rw [hsa.1, hc])
        · rw [Function.update_noteq hji]
          exact hsa.2 j hj
    · rw [find_or_insert_full heq hn]
      exact hsa

/-! ## Event-processing preservation lemmas -/

theorem storeDeadzone_ids (gid : Nat) (gi : Fin 8) (t : State) (za : Fin 4 × GAxis) :
    (storeDeadzone gid gi t za).gilrs_gamepad_ids = t.gilrs_gamepad_ids := by
  rw [storeDeadzone]
  split <;> rfl

theorem storeDeadzone_num (gid : Nat) (gi : Fin 8) (t : State) (za : Fin 4 × GAxis) :
    (storeDeadzone gid gi t za).num_connected_pads = t.num_connected_pads := by
  rw [storeDeadzone]
  split <;> rfl

theorem storeDeadzone_gamepads (gid : Nat) (gi : Fin 8) (t : State) (za : Fin 4 × GAxis) :
    (storeDeadzone gid gi t za).gamepads = t.gamepads := by
  rw [storeDeadzone]
  split <;> rfl

theorem storeDeadzone_instance (gid : Nat) (gi : Fin 8) (t : State) (za : Fin 4 × GAxis) :
    (storeDeadzone gid gi t za).gilrs_instance = t.gilrs_instance := by
  rw [storeDeadzone]
  split <;> rfl

theorem dzfold_ids (gid : Nat) (gi : Fin 8) :
    ∀ (l : List (Fin 4 × GAxis)) (t : State),
      (l.foldl (storeDeadzone gid gi) t).gilrs_gamepad_ids = t.gilrs_gamepad_ids := by
  intro l
  induction l with
  | nil => intro t; rfl
  | cons za l ih =>
    intro t
    rw [List.foldl_cons, ih, storeDeadzone_ids]

theorem dzfold_num (gid : Nat) (gi : Fin 8) :
    ∀ (l : List (Fin 4 × GAxis)) (t : State),
      (l.foldl (storeDeadzone gid gi) t).num_connected_pads = t.num_connected_pads := by
  intro l
  induction l with
  | nil => intro t; rfl
  | cons za l ih =>
    intro t
    rw [List.foldl_cons, ih, storeDeadzone_num]

theorem dzfold_gamepads (gid : Nat) (gi : Fin 8) :
    ∀ (l : List (Fin 4 × GAxis)) (t : State),
      (l.foldl (storeDeadzone gid gi) t).gamepads = t.gamepads := by
  intro l
  induction l with
  | nil => intro t; rfl
  | cons za l ih =>
    intro t
    rw [List.foldl_cons, ih, storeDeadzone_gamepads]

theorem setPad_ids (t : State) (i : Fin 8) (g : Gamepad) :
    (setPad t i g).gilrs_gamepad_ids = t.gilrs_gamepad_ids := rfl

theorem setPad_num (t : State) (i : Fin 8) (g : Gamepad) :
    (setPad t i g).num_connected_pads = t.num_connected_pads := rfl

theorem setPad_gamepads_apply (t : State) (i j : Fin 8) (g : Gamepad) :
    (setPad t j g).gamepads i = if i = j then g else t.gamepads i := by
  rw [setPad]
  exact Function.update_apply t.gamepads j g i

theorem setPad_instance (t : State) (i : Fin 8) (g : Gamepad) :
    (setPad t i g).gilrs_instance = t.gilrs_instance := rfl

theorem setPad_deadzones (t : State) (i : Fin 8) (g : Gamepad) :
    (setPad t i g).deadzones = t.deadzones := rfl

/-- Either an arm of `processEvent` went through `find_or_insert` and then
only touched `gamepads` and `deadzones`, or it left the state alone. -/
theorem processEvent_table (t : State) (e : GEvent) :
    ((processEvent t e).gilrs_gamepad_ids = ((find_or_insert t e.id).2).gilrs_gamepad_ids ∧
      (processEvent t e).num_connected_pads =
        ((find_or_insert t e.id).2).num_connected_pads) ∨
    processEvent t e = t := by
  obtain ⟨eid, ev⟩ := e
  cases ev with
  | Connected =>
    left
    simp only [processEvent]
    cases hfio : find_or_insert t eid with
    | mk o s1 =>
      cases o with
      | some gi => exact ⟨by rw [dzfold_ids, setPad_ids], by rw [dzfold_num, setPad_num]⟩
      | none => exact ⟨rfl, rfl⟩
  | Disconnected =>
    left
    simp only [processEvent]
    cases hfio : find_or_insert t eid with
    | mk o s1 =>
      cases o with
      | some gi => exact ⟨rfl, rfl⟩
      | none => exact ⟨rfl, rfl⟩
  | ButtonPressed gb =>
    left
    simp only [processEvent]
    cases hfio : find_or_insert t eid with
    | mk o s1 =>
      cases o with
      | some gi => cases Button.from_gilrs gb <;> exact ⟨rfl, rfl⟩
      | none => exact ⟨rfl, rfl⟩
  | ButtonReleased gb =>
    left
    simp only [processEvent]
    cases hfio : find_or_insert t eid with
    | mk o s1 =>
      cases o with
      | some gi => cases Button.from_gilrs gb <;> exact ⟨rfl, rfl⟩
      | none => exact ⟨rfl, rfl⟩
  | AxisChanged ax v =>
    left
    simp only [processEvent]
    cases hfio : find_or_insert t eid with
    | mk o s1 =>
      cases o with
      | some gi => cases axisIndex ax <;> exact ⟨rfl, rfl⟩
      | none => exact ⟨rfl, rfl⟩
  | Other => right; rfl

theorem Inv_processEvent {t : State} {e : GEvent} (hInv : Inv t)
    (hid : e.id ≠ USIZE_MAX) : Inv (processEvent t e) := by
  rcases processEvent_table t e with ⟨h1, h2⟩ | h
  · have := Inv_find_or_insert hInv hid
    unfold Inv at this ⊢
    rw [h1, h2]
    exact this
  · rw [h]
    exact hInv

theorem SlotAssigned_processEvent {t : State} {e : GEvent} {i : Fin 8} {hdl : Nat}
    (hInv : Inv t) (hsa : SlotAssigned t i hdl) (hdl_ne : hdl ≠ USIZE_MAX) :
    SlotAssigned (processEvent t e) i hdl := by
  rcases processEvent_table t e with ⟨h1, _⟩ | h
  · have := @SlotAssigned_find_or_insert t i hdl e.id hInv hsa hdl_ne
    unfold SlotAssigned at this ⊢
    rw [h1]
    exact this
  · rw [h]
    exact hsa

theorem processEvents_cons (s : State) (e : GEvent) (l : List GEvent) :
    processEvents s (e :: l) = processEvents (processEvent s e) l := rfl

theorem processEvents_append (s : State) (l1 l2 : List GEvent) :
    processEvents s (l1 ++ l2) = processEvents (processEvents s l1) l2 :=
  List.foldl_append processEvent s l1 l2

/-- If `find_or_insert` hands out a slot, either that slot already held the
handle, or it is the freshly claimed slot at position `num_connected_pads`. -/
theorem find_or_insert_some_cases {t : State} {hdl2 : Nat} {gi : Fin 8} {s1 : State}
    (hfio : find_or_insert t hdl2 = (some gi, s1)) :
    t.gilrs_gamepad_ids gi = hdl2 ∨
      (tableLookup t hdl2 = none ∧ t.num_connected_pads = gi.val) := by
  cases heq : tableLookup t hdl2 with
  | some j =>
    rw [find_or_insert_found heq] at hfio
    have h1 : some j = some gi := congrArg Prod.fst hfio
    cases Option.some.injEq .. ▸ h1
    exact Or.inl (tableLookup_some heq)
  | none =>
    by_cases hn : t.num_connected_pads < MAX_GAMEPADS
    · rw [find_or_insert_insert heq hn] at hfio
      have h1 : some (⟨t.num_connected_pads, hn⟩ : Fin 8) = some gi :=
        congrArg Prod.fst hfio
      have h2 : (⟨t.num_connected_pads, hn⟩ : Fin 8) = gi := by
        exact Option.some_injective _ h1
      exact Or.inr ⟨heq ▸ rfl, congrArg Fin.val h2⟩
    · rw [find_or_insert_full heq hn] at hfio
      exact absurd (congrArg Prod.fst hfio) (by simp)

/-- If `find_or_insert` returns the slot already assigned to `hdl`, the handle
looked up was `hdl` itself. -/
theorem find_or_insert_assigned_slot {t : State} {hdl hdl2 : Nat} {i : Fin 8} {s1 : State}
    (hInv : Inv t) (hsa : SlotAssigned t i hdl) (hdl_ne : hdl ≠ USIZE_MAX)
    (hfio : find_or_insert t hdl2 = (some i, s1)) : hdl2 = hdl := by
  rcases find_or_insert_some_cases hfio with h | ⟨-, hnum⟩
  · rw [← h, hsa.1]
  · have : i.val < t.num_connected_pads := (hInv.2.1 i).mpr (hsa.1 ▸ hdl_ne)
    omega

theorem find_or_insert_pair_gamepads {t : State} {hdl2 : Nat} {o : Option (Fin 8)}
    {s1 : State} (hfio : find_or_insert t hdl2 = (o, s1)) : s1.gamepads = t.gamepads := by
  rw [← find_or_insert_gamepads t hdl2, hfio]

/-- Event processing never clears a set just-pressed bit: only `begin_tick`
(the loop at the top of `poll`) does. -/
theorem justBit_mono (t : State) (e : GEvent) (i : Fin 8) (c : Nat)
    (hbit : ((t.gamepads i).just_pressed_bits).testBit c = true) :
    (((processEvent t e).gamepads i).just_pressed_bits).testBit c = true := by
  obtain ⟨eid, ev⟩ := e
  cases ev with
  | Other => exact hbit
  | Connected =>
    simp only [processEvent]
    cases hfio : find_or_insert t eid with
    | mk o s1 =>
      have hg : s1.gamepads = t.gamepads := find_or_insert_pair_gamepads hfio
      cases o with
      | none => dsimp only; rw [hg]; exact hbit
      | some gi =>
        dsimp only
        rw [dzfold_gamepads, setPad_gamepads_apply]
        by_cases hi : i = gi
        · subst hi; rw [if_pos rfl]; dsimp only; rw [hg]; exact hbit
        · rw [if_neg hi, hg]; exact hbit
  | Disconnected =>
    simp only [processEvent]
    cases hfio : find_or_insert t eid with
    | mk o s1 =>
      have hg : s1.gamepads = t.gamepads := find_or_insert_pair_gamepads hfio
      cases o with
      | none => dsimp only; rw [hg]; exact hbit
      | some gi =>
        dsimp only
        rw [setPad_gamepads_apply]
        by_cases hi : i = gi
        · subst hi; rw [if_pos rfl]; dsimp only; rw [hg]; exact hbit
        · rw [if_neg hi, hg]; exact hbit
  | ButtonPressed gb =>
    simp only [processEvent]
    cases hfio : find_or_insert t eid with
    | mk o s1 =>
      have hg : s1.gamepads = t.gamepads := find_or_insert_pair_gamepads hfio
      cases o with
      | none => dsimp only; rw [hg]; exact hbit
      | some gi =>
        dsimp only
        cases hmap : Button.from_gilrs gb with
        | none => rw [hg]; exact hbit
        | some b2 =>
          rw [setPad_gamepads_apply]
          by_cases hi : i = gi
          · subst hi
            rw [if_pos rfl]
            dsimp only
            rw [Nat.testBit_or, hg, hbit, Bool.true_or]
          · rw [if_neg hi, hg]; exact hbit
  | ButtonReleased gb =>
    simp only [processEvent]
    cases hfio : find_or_insert t eid with
    | mk o s1 =>
      have hg : s1.gamepads = t.gamepads := find_or_insert_pair_gamepads hfio
      cases o with
      | none => dsimp only; rw [hg]; exact hbit
      | some gi =>
        dsimp only
        cases hmap : Button.from_gilrs gb with
        | none => rw [hg]; exact hbit
        | some b2 =>
          rw [setPad_gamepads_apply]
          by_cases hi : i = gi
          · subst hi; rw [if_pos rfl]; dsimp only; rw [hg]; exact hbit
          · rw [if_neg hi, hg]; exact hbit
  | AxisChanged ax v =>
    simp only [processEvent]
    cases hfio : find_or_insert t eid with
    | mk o s1 =>
      have hg : s1.gamepads = t.gamepads := find_or_insert_pair_gamepads hfio
      cases o with
      | none => dsimp only; rw [hg]; exact hbit
      | some gi =>
        dsimp only
        cases hmap : axisIndex ax with
        | none => rw [hg]; exact hbit
        | some ai =>
          dsimp only
          rw [setPad_gamepads_apply]
          by_cases hi : i = gi
          · subst hi; rw [if_pos rfl]; dsimp only; rw [hg]; exact hbit
          · rw [if_neg hi, hg]; exact hbit

/-- The event is a press of a native button that maps to logical button `b`,
on the gamepad with backend handle `hdl`. -/
def pressesButton (e : GEvent) (hdl : Nat) (b : Button) : Prop :=
  e.id = hdl ∧ ∃ gb, e.event = GEventType.ButtonPressed gb ∧ Button.from_gilrs gb = some b

instance (e : GEvent) (hdl : Nat) (b : Button) : Decidable (pressesButton e hdl b) := by
  unfold pressesButton
  infer_instance

/-- A clear pressed bit at an assigned slot stays clear across any event that
is not a press of that button on that slot's handle. -/
theorem pressedBit_step (t : State) (e : GEvent) (i : Fin 8) (hdl : Nat) (b : Button)
    (hInv : Inv t) (hsa : SlotAssigned t i hdl) (hdl_ne : hdl ≠ USIZE_MAX)
    (hnp : ¬ pressesButton e hdl b)
    (hbit : ((t.gamepads i).pressed_bits).testBit b.code = false) :
    (((processEvent t e).gamepads i).pressed_bits).testBit b.code = false := by
  obtain ⟨eid, ev⟩ := e
  cases ev with
  | Other => exact hbit
  | Connected =>
    simp only [processEvent]
    cases hfio : find_or_insert t eid with
    | mk o s1 =>
      have hg : s1.gamepads = t.gamepads := find_or_insert_pair_gamepads hfio
      cases o with
      | none => dsimp only; rw [hg]; exact hbit
      | some gi =>
        dsimp only
        rw [dzfold_gamepads, setPad_gamepads_apply]
        by_cases hi : i = gi
        · subst hi; rw [if_pos rfl]; dsimp only; rw [hg]; exact hbit
        · rw [if_neg hi, hg]; exact hbit
  | Disconnected =>
    simp only [processEvent]
    cases hfio : find_or_insert t eid with
    | mk o s1 =>
      have hg : s1.gamepads = t.gamepads := find_or_insert_pair_gamepads hfio
      cases o with
      | none => dsimp only; rw [hg]; exact hbit
      | some gi =>
        dsimp only
        rw [setPad_gamepads_apply]
        by_cases hi : i = gi
        · subst hi; rw [if_pos rfl]; dsimp only; rw [hg]; exact hbit
        · rw [if_neg hi, hg]; exact hbit
  | ButtonPressed gb =>
    simp only [processEvent]
    cases hfio : find_or_insert t eid with
    | mk o s1 =>
      have hg : s1.gamepads = t.gamepads := find_or_insert_pair_gamepads hfio
      cases o with
      | none => dsimp only; rw [hg]; exact hbit
      | some gi =>
        dsimp only
        cases hmap : Button.from_gilrs gb with
        | none => rw [hg]; exact hbit
        | some b2 =>
          rw [setPad_gamepads_apply]
          by_cases hi : i = gi
          · subst hi
            have heid : eid = hdl := find_or_insert_assigned_slot hInv hsa hdl_ne hfio
            have hb2 : b2 ≠ b := by
              intro hc
              exact hnp ⟨heid, gb, rfl, hc ▸ hmap⟩
            rw [if_pos rfl]
            dsimp only
            rw [Nat.testBit_or, hg, hbit, shift_testBit, Bool.false_or,
              decide_eq_false (fun hc => hb2 (Button.code_injective b2 b hc))]
          · rw [if_neg hi, hg]; exact hbit
  | ButtonReleased gb =>
    simp only [processEvent]
    cases hfio : find_or_insert t eid with
    | mk o s1 =>
      have hg : s1.gamepads = t.gamepads := find_or_insert_pair_gamepads hfio
      cases o with
      | none => dsimp only; rw [hg]; exact hbit
      | some gi =>
        dsimp only
        cases hmap : Button.from_gilrs gb with
        | none => rw [hg]; exact hbit
        | some b2 =>
          rw [setPad_gamepads_apply]
          by_cases hi : i = gi
          · subst hi
            rw [if_pos rfl]
            dsimp only
            rw [and_compl32_testBit _ _ _ (Button.code_lt b), hg, hbit, Bool.false_and]
          · rw [if_neg hi, hg]; exact hbit
  | AxisChanged ax v =>
    simp only [processEvent]
    cases hfio : find_or_insert t eid with
    | mk o s1 =>
      have hg : s1.gamepads = t.gamepads := find_or_insert_pair_gamepads hfio
      cases o with
      | none => dsimp only; rw [hg]; exact hbit
      | some gi =>
        dsimp only
        cases hmap : axisIndex ax with
        | none => rw [hg]; exact hbit
        | some ai =>
          dsimp only
          rw [setPad_gamepads_apply]
          by_cases hi : i = gi
          · subst hi; rw [if_pos rfl]; dsimp only; rw [hg]; exact hbit
          · rw [if_neg hi, hg]; exact hbit

theorem processEvents_induction (P : State → Prop) (l : List GEvent)
    (step : ∀ t e, e ∈ l → P t → P (processEvent t e)) :
    ∀ s, P s → P (processEvents s l) := by
  induction l with
  | nil => intro s hs; exact hs
  | cons e l ih =>
    intro s hs
    rw [processEvents_cons]
    exact ih (fun t e2 he2 ht => step t e2 (List.mem_cons_of_mem _ he2) ht)
      (processEvent s e) (step s e (List.mem_cons_self _ _) hs)

/-- A `ButtonPressed` event on a handle whose slot is already assigned sets
both bitmask bits of the mapped button at that slot. -/
theorem processEvent_press_assigned {t : State} {i : Fin 8} {hdl : Nat}
    {gb : GButton} {b : Button} (hsa : SlotAssigned t i hdl)
    (hmap : Button.from_gilrs gb = some b) :
    processEvent t ⟨hdl, .ButtonPressed gb⟩ =
      setPad t i
        { t.gamepads i with
          pressed_bits := (t.gamepads i).pressed_bits ||| 1 <<< b.code
          just_pressed_bits := (t.gamepads i).just_pressed_bits ||| 1 <<< b.code } := by
  simp only [processEvent]
  rw [find_or_insert_found (slotAssigned_lookup hsa)]
  dsimp only
  rw [hmap]

/-- A `ButtonReleased` event on a handle whose slot is already assigned
clears the mapped button's bit from the currently-pressed bitmask only. -/
theorem processEvent_release_assigned {t : State} {i : Fin 8} {hdl : Nat}
    {gb : GButton} {b : Button} (hsa : SlotAssigned t i hdl)
    (hmap : Button.from_gilrs gb = some b) :
    processEvent t ⟨hdl, .ButtonReleased gb⟩ =
      setPad t i
        { t.gamepads i with
          pressed_bits := (t.gamepads i).pressed_bits &&& compl32 (1 <<< b.code) } := by
  simp only [processEvent]
  rw [find_or_insert_found (slotAssigned_lookup hsa)]
  dsimp only
  rw [hmap]

theorem beginTick_just (s : State) (i : Fin 8) :
    ((beginTick s).gamepads i).just_pressed_bits = 0 := rfl

theorem beginTick_ids (s : State) :
    (beginTick s).gilrs_gamepad_ids = s.gilrs_gamepad_ids := rfl

theorem beginTick_num (s : State) :
    (beginTick s).num_connected_pads = s.num_connected_pads := rfl

/-! ## Claim C1 -/

/-- C1: in the event-stream backend, a button pressed and then released
within the same tick window (with no later press of it that tick) is
reported just-pressed but not currently-pressed at the end of the tick, and
no longer just-pressed once the next poll's clearing phase has run. -/
theorem gilrs_press_release_within_tick
    (s : State) (hdl : Nat) (i : Fin 8) (gb : GButton) (b : Button)
    (l1 l2 l3 : List GEvent)
    (hInv : Inv s) (hdl_ne : hdl ≠ USIZE_MAX)
    (hlook : tableLookup s hdl = some i)
    (hmap : Button.from_gilrs gb = some b)
    (hok : ∀ e ∈ l1 ++ (⟨hdl, .ButtonPressed gb⟩ : GEvent) ::
      (l2 ++ (⟨hdl, .ButtonReleased gb⟩ : GEvent) :: l3), e.id ≠ USIZE_MAX)
    (hnp : ∀ e ∈ l3, ¬ pressesButton e hdl b) :
    ((poll s (l1 ++ (⟨hdl, .ButtonPressed gb⟩ : GEvent) ::
        (l2 ++ (⟨hdl, .ButtonReleased gb⟩ : GEvent) :: l3))).gamepads i).is_just_pressed b
        = true ∧
    ((poll s (l1 ++ (⟨hdl, .ButtonPressed gb⟩ : GEvent) ::
        (l2 ++ (⟨hdl, .ButtonReleased gb⟩ : GEvent) :: l3))).gamepads i).is_currently_pressed b
        = false ∧
    ((beginTick (poll s (l1 ++ (⟨hdl, .ButtonPressed gb⟩ : GEvent) ::
        (l2 ++ (⟨hdl, .ButtonReleased gb⟩ : GEvent) :: l3)))).gamepads i).is_just_pressed b
        = false := by
  have hpoll : poll s (l1 ++ (⟨hdl, .ButtonPressed gb⟩ : GEvent) ::
      (l2 ++ (⟨hdl, .ButtonReleased gb⟩ : GEvent) :: l3)) =
      processEvents
        (processEvent
          (processEvents
            (processEvent (processEvents (beginTick s) l1) ⟨hdl, .ButtonPressed gb⟩)
            l2)
          ⟨hdl, .ButtonReleased gb⟩)
        l3 := by
    rw [poll, processEvents_append, processEvents_cons, processEvents_append,
      processEvents_cons]
  have hInv0 : Inv (beginTick s) := hInv
  have hsa0 : SlotAssigned (beginTick s) i hdl :=
    lookup_slotAssigned hInv hdl_ne hlook
  have hA : Inv (processEvents (beginTick s) l1) ∧
      SlotAssigned (processEvents (beginTick s) l1) i hdl := by
    refine processEvents_induction
      (fun t => Inv t ∧ SlotAssigned t i hdl) l1 (fun t e he ht => ?_) _ ⟨hInv0, hsa0⟩
    have hid : e.id ≠ USIZE_MAX := hok e (List.mem_append.mpr (Or.inl he))
    exact ⟨Inv_processEvent ht.1 hid, SlotAssigned_processEvent ht.1 ht.2 hdl_ne⟩
  have hpress_eq := processEvent_press_assigned hA.2 hmap
  have hid_press : (⟨hdl, GEventType.ButtonPressed gb⟩ : GEvent).id ≠ USIZE_MAX := hdl_ne
  have hInv2 : Inv (processEvent (processEvents (beginTick s) l1)
      ⟨hdl, .ButtonPressed gb⟩) := Inv_processEvent hA.1 hid_press
  have hsa2 : SlotAssigned (processEvent (processEvents (beginTick s) l1)
      ⟨hdl, .ButtonPressed gb⟩) i hdl :=
    SlotAssigned_processEvent hA.1 hA.2 hdl_ne
  have hjust2 : (((processEvent (processEvents (beginTick s) l1)
      ⟨hdl, .ButtonPressed gb⟩).gamepads i).just_pressed_bits).testBit b.code = true := by
    rw [hpress_eq, setPad_gamepads_apply, if_pos rfl]
    dsimp only
    rw [Nat.testBit_or, shift_testBit]
    simp
  have hB : ∀ t1, Inv t1 → SlotAssigned t1 i hdl →
      ((t1.gamepads i).just_pressed_bits).testBit b.code = true →
      (Inv (processEvents t1 l2) ∧ SlotAssigned (processEvents t1 l2) i hdl ∧
        (((processEvents t1 l2).gamepads i).just_pressed_bits).testBit b.code = true) := by
    intro t1 h1 h2 h3
    refine processEvents_induction
      (fun t => Inv t ∧ SlotAssigned t i hdl ∧
        ((t.gamepads i).just_pressed_bits).testBit b.code = true)
      l2 (fun t e he ht => ?_) _ ⟨h1, h2, h3⟩
    have hid : e.id ≠ USIZE_MAX := hok e (List.mem_append.mpr (Or.inr
      (List.mem_cons_of_mem _ (List.mem_append.mpr (Or.inl he)))))
    exact ⟨Inv_processEvent ht.1 hid, SlotAssigned_processEvent ht.1 ht.2.1 hdl_ne,
      justBit_mono t e i b.code ht.2.2⟩
  obtain ⟨hInv3, hsa3, hjust3⟩ := hB _ hInv2 hsa2 hjust2
  have hrel_eq := processEvent_release_assigned hsa3 hmap
  have hid_rel : (⟨hdl, GEventType.ButtonReleased gb⟩ : GEvent).id ≠ USIZE_MAX := hdl_ne
  have hInv4 : Inv (processEvent (processEvents (processEvent
      (processEvents (beginTick s) l1) ⟨hdl, .ButtonPressed gb⟩) l2)
      ⟨hdl, .ButtonReleased gb⟩) := Inv_processEvent hInv3 hid_rel
  have hsa4 := @SlotAssigned_processEvent _ ⟨hdl, .ButtonReleased gb⟩ _ _ hInv3 hsa3 hdl_ne
  have hjust4 : (((processEvent (processEvents (processEvent
      (processEvents (beginTick s) l1) ⟨hdl, .ButtonPressed gb⟩) l2)
      ⟨hdl, .ButtonReleased gb⟩).gamepads i).just_pressed_bits).testBit b.code = true := by
    rw [hrel_eq, setPad_gamepads_apply, if_pos rfl]
    exact hjust3
  have hpressed4 : (((processEvent (processEvents (processEvent
      (processEvents (beginTick s) l1) ⟨hdl, .ButtonPressed gb⟩) l2)
      ⟨hdl, .ButtonReleased gb⟩).gamepads i).pressed_bits).testBit b.code = false := by
    rw [hrel_eq, setPad_gamepads_apply, if_pos rfl]
    dsimp only
    rw [and_compl32_testBit _ _ _ (Button.code_lt b)]
    simp
  have hC : Inv (processEvents (processEvent (processEvents (processEvent
        (processEvents (beginTick s) l1) ⟨hdl, .ButtonPressed gb⟩) l2)
        ⟨hdl, .ButtonReleased gb⟩) l3) ∧
      SlotAssigned (processEvents (processEvent (processEvents (processEvent
        (processEvents (beginTick s) l1) ⟨hdl, .ButtonPressed gb⟩) l2)
        ⟨hdl, .ButtonReleased gb⟩) l3) i hdl ∧
      (((processEvents (processEvent (processEvents (processEvent
        (processEvents (beginTick s) l1) ⟨hdl, .ButtonPressed gb⟩) l2)
        ⟨hdl, .ButtonReleased gb⟩) l3).gamepads i).just_pressed_bits).testBit b.code
        = true ∧
      (((processEvents (processEvent (processEvents (processEvent
        (processEvents (beginTick s) l1) ⟨hdl, .ButtonPressed gb⟩) l2)
        ⟨hdl, .ButtonReleased gb⟩) l3).gamepads i).pressed_bits).testBit b.code
        = false := by
    refine processEvents_induction
      (fun t => Inv t ∧ SlotAssigned t i hdl ∧
        ((t.gamepads i).just_pressed_bits).testBit b.code = true ∧
        ((t.gamepads i).pressed_bits).testBit b.code = false)
      l3 (fun t e he ht => ?_) _ ⟨hInv4, hsa4, hjust4, hpressed4⟩
    have hid : e.id ≠ USIZE_MAX := hok e (List.mem_append.mpr (Or.inr
      (List.mem_cons_of_mem _ (List.mem_append.mpr (Or.inr
        (List.mem_cons_of_mem _ he))))))
    exact ⟨Inv_processEvent ht.1 hid, SlotAssigned_processEvent ht.1 ht.2.1 hdl_ne,
      justBit_mono t e i b.code ht.2.2.1,
      pressedBit_step t e i hdl b ht.1 ht.2.1 hdl_ne (hnp e he) ht.2.2.2⟩
  refine ⟨?_, ?_, ?_⟩
  · rw [hpoll, is_just_pressed_testBit]
    exact hC.2.2.1
  · rw [hpoll, is_currently_pressed_testBit]
    exact hC.2.2.2
  · rw [is_just_pressed_testBit, beginTick_just]
    simp

/-! ## Claim C2 -/

/-- Whenever `find_or_insert` hands out a slot, the handle owns exactly that
slot afterwards, and the invariant is kept. -/
theorem find_or_insert_some_slotAssigned {s : State} {hdl : Nat} {i : Fin 8} {s1 : State}
    (hInv : Inv s) (hdl_ne : hdl ≠ USIZE_MAX)
    (hfio : find_or_insert s hdl = (some i, s1)) :
    SlotAssigned s1 i hdl ∧ Inv s1 := by
  have hInv1 : Inv s1 := by
    have := Inv_find_or_insert hInv hdl_ne
    rw [hfio] at this
    exact this
  refine ⟨?_, hInv1⟩
  cases heq : tableLookup s hdl with
  | some j =>
    rw [find_or_insert_found heq] at hfio
    have h2 : s = s1 := congrArg Prod.snd hfio
    have h1 : some j = some i := congrArg Prod.fst hfio
    cases Option.some_injective _ h1
    exact h2 ▸ lookup_slotAssigned hInv hdl_ne heq
  | none =>
    by_cases hn : s.num_connected_pads < MAX_GAMEPADS
    · rw [find_or_insert_insert heq hn] at hfio
      have h1 : some (⟨s.num_connected_pads, hn⟩ : Fin 8) = some i :=
        congrArg Prod.fst hfio
      have hidx : (⟨s.num_connected_pads, hn⟩ : Fin 8) = i := Option.some_injective _ h1
      have h2 := congrArg Prod.snd hfio
      dsimp only at h2
      have hnone := tableLookup_eq_none.mp heq
      subst hidx
      rw [← h2]
      constructor
      · dsimp only
        exact Function.update_same ..
      · intro j hj
        dsimp only
        rw [Function.update_noteq hj]
        exact fun hc => hnone j hc
    · rw [find_or_insert_full heq hn] at hfio
      exact absurd (congrArg Prod.fst hfio) (by simp)

theorem Inv_SA_poll {t : State} {i : Fin 8} {hdl : Nat} (evs : List GEvent)
    (hInv : Inv t) (hsa : SlotAssigned t i hdl) (hdl_ne : hdl ≠ USIZE_MAX)
    (hok : ∀ e ∈ evs, e.id ≠ USIZE_MAX) :
    Inv (poll t evs) ∧ SlotAssigned (poll t evs) i hdl := by
  have h0 : Inv (beginTick t) ∧ SlotAssigned (beginTick t) i hdl := ⟨hInv, hsa⟩
  exact processEvents_induction
    (fun u => Inv u ∧ SlotAssigned u i hdl) evs
    (fun u e he hu => ⟨Inv_processEvent hu.1 (hok e he),
      SlotAssigned_processEvent hu.1 hu.2 hdl_ne⟩) _ h0

theorem Inv_SA_runTicks {t : State} {i : Fin 8} {hdl : Nat}
    (ticks : List (List GEvent))
    (hInv : Inv t) (hsa : SlotAssigned t i hdl) (hdl_ne : hdl ≠ USIZE_MAX)
    (hok : ∀ evs ∈ ticks, ∀ e ∈ evs, e.id ≠ USIZE_MAX) :
    Inv (runTicks t ticks) ∧ SlotAssigned (runTicks t ticks) i hdl := by
  induction ticks generalizing t with
  | nil => exact ⟨hInv, hsa⟩
  | cons evs ticks ih =>
    have hstep := Inv_SA_poll evs hInv hsa hdl_ne
      (hok evs (List.mem_cons_self _ _))
    exact ih hstep.1 hstep.2 (fun evs2 h2 => hok evs2 (List.mem_cons_of_mem _ h2))

/-- C2: a handle's slot assignment is permanent: once `find_or_insert` maps a
handle to a slot, every later lookup after any sequence of polled ticks
returns the same slot and changes nothing; while the table is not full a new
handle gets the next slot; and when all 8 slots are taken an unknown handle
gets no slot, the state is left untouched, and every event carrying that
handle is discarded without effect. -/
theorem find_or_insert_stable_and_capacity
    (s : State) (hdl : Nat) (hInv : Inv s) (hdl_ne : hdl ≠ USIZE_MAX) :
    (∀ (i : Fin 8) (s1 : State), find_or_insert s hdl = (some i, s1) →
      ∀ ticks : List (List GEvent), (∀ evs ∈ ticks, ∀ e ∈ evs, e.id ≠ USIZE_MAX) →
        find_or_insert (runTicks s1 ticks) hdl = (some i, runTicks s1 ticks)) ∧
    (tableLookup s hdl = none → s.num_connected_pads < MAX_GAMEPADS →
      ∃ i : Fin 8, (find_or_insert s hdl).1 = some i ∧
        i.val = s.num_connected_pads) ∧
    (s.num_connected_pads = MAX_GAMEPADS → tableLookup s hdl = none →
      find_or_insert s hdl = (none, s) ∧
      ∀ et : GEventType, processEvent s ⟨hdl, et⟩ = s) := by
  refine ⟨?_, ?_, ?_⟩
  · intro i s1 hfio ticks hok
    obtain ⟨hsa1, hInv1⟩ := find_or_insert_some_slotAssigned hInv hdl_ne hfio
    obtain ⟨-, hsaT⟩ := Inv_SA_runTicks ticks hInv1 hsa1 hdl_ne hok
    exact find_or_insert_found (slotAssigned_lookup hsaT)
  · intro hnone hn
    exact ⟨⟨s.num_connected_pads, hn⟩, by rw [find_or_insert_insert hnone hn], rfl⟩
  · intro hfull hnone
    have hn : ¬ s.num_connected_pads < MAX_GAMEPADS := by omega
    have hfio := find_or_insert_full hnone hn
    refine ⟨hfio, fun et => ?_⟩
    cases et with
    | Other => rfl
    | Connected => simp only [processEvent]; rw [hfio]
    | Disconnected => simp only [processEvent]; rw [hfio]
    | ButtonPressed gb => simp only [processEvent]; rw [hfio]
    | ButtonReleased gb => simp only [processEvent]; rw [hfio]
    | AxisChanged ax v => simp only [processEvent]; rw [hfio]

/-! ## Claim C3 -/

/-- Mathematical sign, as written in the specification's formula
`sign(raw_value) * (|raw_value| - deadzone) / (1 - deadzone)`. -/
def signQ (q : ℚ) : ℚ := if q < 0 then -1 else if q = 0 then 0 else 1

/-- C3: for a non-negative stored deadzone `d`, the value the `AxisChanged`
arm writes into the axis array is exactly `0` inside the deadzone and
`sign(v) * (|v| - d) / (1 - d)` outside it; for `d = 0` it is the identity;
and the written entry is `normalizeAxis` of the stored deadzone. -/
theorem axis_normalization_formula (v d : ℚ) (hd : 0 ≤ d) :
    (normalizeAxis v d = (if |v| < d then 0 else signQ v * (|v| - d) / (1 - d)) ∧
      normalizeAxis v 0 = v) ∧
    (∀ (t : State) (hdl : Nat) (i : Fin 8) (ax : GAxis) (ai : Fin 4),
      SlotAssigned t i hdl → axisIndex ax = some ai →
      ((processEvent t ⟨hdl, .AxisChanged ax v⟩).gamepads i).axes ai =
        normalizeAxis v (t.deadzones i ai)) := by
  refine ⟨⟨?_, ?_⟩, ?_⟩
  · rw [normalizeAxis]
    by_cases hlt : |v| < d
    · rw [if_pos hlt, if_pos hlt]
    · rw [if_neg hlt, if_neg hlt]
      congr 1
      rcases lt_trichotomy v 0 with hv | hv | hv
      · rw [rsignum, if_pos hv, signQ, if_pos hv, abs_of_neg hv]
        ring
      · subst hv
        have hd0 : d = 0 := by
          have h1 : ¬ (0 : ℚ) < d := by simpa using hlt
          exact le_antisymm (not_lt.mp h1) hd
        subst hd0
        simp [rsignum, signQ]
      · rw [rsignum, if_neg (not_lt.mpr hv.le), signQ, if_neg (not_lt.mpr hv.le),
          if_neg (ne_of_gt hv), abs_of_pos hv]
        ring
  · rw [normalizeAxis, if_neg (not_lt.mpr (abs_nonneg v))]
    simp [rsignum]
  · intro t hdl i ax ai hsa hax
    simp only [processEvent]
    rw [find_or_insert_found (slotAssigned_lookup hsa)]
    dsimp only
    rw [hax]
    dsimp only
    rw [setPad_gamepads_apply, if_pos rfl]
    dsimp only
    rw [Function.update_same]

/-- A backend-information record that reports nothing (used to build small
concrete states for witnesses). -/
def infoNone : GilrsInfo where
  axis_code := fun _ _ => none
  deadzone := fun _ _ => none

/-- A small concrete state: a fresh instance that saw one `Connected` event
for backend handle 5, which therefore owns slot 0. -/
def sampleState : State := new infoNone [⟨5, .Connected⟩] []

/-- Witness for C3 at `v = 5`, `d = 0`, on the sample state's slot 0. -/
theorem axis_normalization_formula_witness :
    (0 : ℚ) ≤ 0 ∧
      ((normalizeAxis 5 0 =
          (if |(5 : ℚ)| < 0 then 0 else signQ 5 * (|(5 : ℚ)| - 0) / (1 - 0)) ∧
        normalizeAxis 5 0 = 5) ∧
      (∀ (t : State) (hdl : Nat) (i : Fin 8) (ax : GAxis) (ai : Fin 4),
        SlotAssigned t i hdl → axisIndex ax = some ai →
        ((processEvent t ⟨hdl, .AxisChanged ax 5⟩).gamepads i).axes ai =
          normalizeAxis 5 (t.deadzones i ai))) ∧
    ((processEvent sampleState ⟨5, .AxisChanged .LeftStickX 5⟩).gamepads 0).axes 0 =
      normalizeAxis 5 (sampleState.deadzones 0 0) :=
  ⟨le_refl 0, axis_normalization_formula 5 0 (le_refl 0),
    (axis_normalization_formula 5 0 (le_refl 0)).2 sampleState 5 0 .LeftStickX 0
      (by decide) rfl⟩

/-- Witness for C1: on the sample state, pressing and releasing `South`
(logical `ActionDown`) on handle 5 within one tick. -/
theorem gilrs_press_release_within_tick_witness :
    Inv sampleState ∧ tableLookup sampleState 5 = some 0 ∧
    (((poll sampleState [⟨5, .ButtonPressed .South⟩,
        ⟨5, .ButtonReleased .South⟩]).gamepads 0).is_just_pressed .ActionDown = true ∧
      ((poll sampleState [⟨5, .ButtonPressed .South⟩,
        ⟨5, .ButtonReleased .South⟩]).gamepads 0).is_currently_pressed .ActionDown
        = false ∧
      ((beginTick (poll sampleState [⟨5, .ButtonPressed .South⟩,
        ⟨5, .ButtonReleased .South⟩])).gamepads 0).is_just_pressed .ActionDown
        = false) := by
  refine ⟨by decide, by decide, ?_⟩
  exact gilrs_press_release_within_tick sampleState 5 0 .South .ActionDown [] [] []
    (by decide) (by decide) (by decide) (by decide) (by decide) (by decide)

/-- Witness for C2 on the sample state: handle 5 owns slot 0, and still owns
it after a tick that disconnects it and a tick that reconnects it. -/
theorem find_or_insert_stable_and_capacity_witness :
    Inv sampleState ∧ (5 : Nat) ≠ USIZE_MAX ∧
      find_or_insert (runTicks sampleState
          [[⟨5, .Disconnected⟩], [⟨5, .Connected⟩]]) 5 =
        (some 0, runTicks sampleState [[⟨5, .Disconnected⟩], [⟨5, .Connected⟩]]) := by
  refine ⟨by decide, by decide, ?_⟩
  exact (find_or_insert_stable_and_capacity sampleState 5 (by decide) (by decide)).1
    0 sampleState (find_or_insert_found (by decide))
    [[⟨5, .Disconnected⟩], [⟨5, .Connected⟩]] (by decide)

/-! ## Claim C4 -/

/-- The event is a release of a native button that maps to logical button
`b`. -/
def releasedButton (e : GEvent) (b : Button) : Prop :=
  ∃ gb, e.event = GEventType.ButtonReleased gb ∧ Button.from_gilrs gb = some b

/-- One event keeps the per-slot property "every just-pressed bit is also
currently pressed, unless a release of that button was seen" intact. -/
theorem justImpliesPressed_step (t : State) (e : GEvent) (i : Fin 8) (b : Button)
    (R : Prop) (hR : releasedButton e b → R)
    (h : ((t.gamepads i).just_pressed_bits).testBit b.code = true →
      ((t.gamepads i).pressed_bits).testBit b.code = true ∨ R) :
    ((processEvent t e).gamepads i).just_pressed_bits.testBit b.code = true →
      ((processEvent t e).gamepads i).pressed_bits.testBit b.code = true ∨ R := by
  obtain ⟨eid, ev⟩ := e
  cases ev with
  | Other => exact h
  | Connected =>
    simp only [processEvent]
    cases hfio : find_or_insert t eid with
    | mk o s1 =>
      have hg : s1.gamepads = t.gamepads := find_or_insert_pair_gamepads hfio
      cases o with
      | none => dsimp only; rw [hg]; exact h
      | some gi =>
        dsimp only
        rw [dzfold_gamepads, setPad_gamepads_apply]
        by_cases hi : i = gi
        · subst hi; rw [if_pos rfl]; dsimp only; rw [hg]; exact h
        · rw [if_neg hi, hg]; exact h
  | Disconnected =>
    simp only [processEvent]
    cases hfio : find_or_insert t eid with
    | mk o s1 =>
      have hg : s1.gamepads = t.gamepads := find_or_insert_pair_gamepads hfio
      cases o with
      | none => dsimp only; rw [hg]; exact h
      | some gi =>
        dsimp only
        rw [setPad_gamepads_apply]
        by_cases hi : i = gi
        · subst hi; rw [if_pos rfl]; dsimp only; rw [hg]; exact h
        · rw [if_neg hi, hg]; exact h
  | ButtonPressed gb =>
    simp only [processEvent]
    cases hfio : find_or_insert t eid with
    | mk o s1 =>
      have hg : s1.gamepads = t.gamepads := find_or_insert_pair_gamepads hfio
      cases o with
      | none => dsimp only; rw [hg]; exact h
      | some gi =>
        dsimp only
        cases hmap : Button.from_gilrs gb with
        | none => rw [hg]; exact h
        | some b2 =>
          rw [setPad_gamepads_apply]
          by_cases hi : i = gi
          · subst hi
            rw [if_pos rfl]
            dsimp only
            rw [Nat.testBit_or, Nat.testBit_or, hg, shift_testBit]
            intro hj
            rcases Bool.or_eq_true_iff.mp hj with hj | hj
            · rcases h hj with hp | hr
              · exact Or.inl (by rw [hp, Bool.true_or])
              · exact Or.inr hr
            · exact Or.inl (by rw [hj, Bool.or_true])
          · rw [if_neg hi, hg]; exact h
  | ButtonReleased gb =>
    simp only [processEvent]
    cases hfio : find_or_insert t eid with
    | mk o s1 =>
      have hg : s1.gamepads = t.gamepads := find_or_insert_pair_gamepads hfio
      cases o with
      | none => dsimp only; rw [hg]; exact h
      | some gi =>
        dsimp only
        cases hmap : Button.from_gilrs gb with
        | none => rw [hg]; exact h
        | some b2 =>
          rw [setPad_gamepads_apply]
          by_cases hi : i = gi
          · subst hi
            rw [if_pos rfl]
            dsimp only
            rw [and_compl32_testBit _ _ _ (Button.code_lt b), hg]
            intro hj
            rcases h hj with hp | hr
            · by_cases hbb : b2 = b
              · exact Or.inr (hR ⟨gb, rfl, hbb ▸ hmap⟩)
              · refine Or.inl ?_
                rw [hp, Bool.true_and,
                  decide_eq_false (fun hc => hbb (Button.code_injective b2 b hc))]
                rfl
            · exact Or.inr hr
          · rw [if_neg hi, hg]; exact h
  | AxisChanged ax v =>
    simp only [processEvent]
    cases hfio : find_or_insert t eid with
    | mk o s1 =>
      have hg : s1.gamepads = t.gamepads := find_or_insert_pair_gamepads hfio
      cases o with
      | none => dsimp only; rw [hg]; exact h
      | some gi =>
        dsimp only
        cases hmap : axisIndex ax with
        | none => rw [hg]; exact h
        | some ai =>
          dsimp only
          rw [setPad_gamepads_apply]
          by_cases hi : i = gi
          · subst hi; rw [if_pos rfl]; dsimp only; rw [hg]; exact h
          · rw [if_neg hi, hg]; exact h

/-- Counterexample to C4 as stated: pressing and then releasing `South` on
handle 5 within one tick yields a reachable state whose slot 0 has
`just_pressed_bits & !pressed_bits ≠ 0`. -/
theorem just_pressed_subset_pressed_counterexample :
    Reachable (poll sampleState
      [⟨5, .ButtonPressed .South⟩, ⟨5, .ButtonReleased .South⟩]) ∧
    ((poll sampleState [⟨5, .ButtonPressed .South⟩,
        ⟨5, .ButtonReleased .South⟩]).gamepads 0).just_pressed_bits &&&
      compl32 (((poll sampleState [⟨5, .ButtonPressed .South⟩,
        ⟨5, .ButtonReleased .South⟩]).gamepads 0).pressed_bits) ≠ 0 := by
  constructor
  · exact Reachable.poll _ _ (Reachable.new infoNone [⟨5, .Connected⟩] [])
  · decide

/-- C4 amended: after any poll, every bit set in a slot's just-pressed
bitmask is also set in its currently-pressed bitmask unless some event of
that tick released the corresponding button. -/
theorem just_pressed_subset_pressed_amended
    (s : State) (evs : List GEvent) (i : Fin 8) (b : Button)
    (hjp : (((poll s evs).gamepads i).just_pressed_bits).testBit b.code = true) :
    (((poll s evs).gamepads i).pressed_bits).testBit b.code = true ∨
      ∃ e ∈ evs, releasedButton e b := by
  have h := processEvents_induction
    (fun t => ((t.gamepads i).just_pressed_bits).testBit b.code = true →
      ((t.gamepads i).pressed_bits).testBit b.code = true ∨
        ∃ e ∈ evs, releasedButton e b)
    evs
    (fun t e he ht =>
      justImpliesPressed_step t e i b _ (fun hrel => ⟨e, he, hrel⟩) ht)
    (beginTick s)
    (fun hfalse => by rw [beginTick_just] at hfalse; simp at hfalse)
  exact h hjp

/-- Witness for the amended C4: a tick with a single press of `South`. -/
theorem just_pressed_subset_pressed_amended_witness :
    (((poll sampleState [⟨5, .ButtonPressed .South⟩]).gamepads 0).just_pressed_bits).testBit
        (Button.code .ActionDown) = true ∧
    ((((poll sampleState [⟨5, .ButtonPressed .South⟩]).gamepads 0).pressed_bits).testBit
        (Button.code .ActionDown) = true ∨
      ∃ e ∈ [(⟨5, .ButtonPressed .South⟩ : GEvent)], releasedButton e .ActionDown) :=
  ⟨by decide,
    just_pressed_subset_pressed_amended sampleState [⟨5, .ButtonPressed .South⟩]
      0 .ActionDown (by decide)⟩

/-! ## Claim C5 -/

theorem and_shift_beq (x c : Nat) : ((x &&& (1 <<< c)) == 0) = !x.testBit c := by
  rw [← and_shift_bne]
  simp [bne]

theorem and_compl32_testBit_any (x y k : Nat) (hk : k < 32) :
    (x &&& compl32 y).testBit k = (x.testBit k && !y.testBit k) := by
  rw [compl32, U32_MASK, Nat.testBit_and, Nat.testBit_xor, Nat.testBit_two_pow_sub_one]
  simp [hk]

/-- C5: the snapshot-backend poll saves each slot's pressed-bitmask as the
previous-tick copy before the host snapshot overwrites the slot, takes this
tick's bits from the snapshot, and reports a button just-pressed exactly when
its bit is in `this_tick_bits & !previous_tick_bits`. -/
theorem snapshot_just_pressed_derivation
    (pads : Fin 8 → WGamepad) (snap : Fin 8 → SnapshotRecord) (i : Fin 8) (b : Button) :
    (pollSnapshot pads snap i).last_pressed_bits = (pads i).pressed_bits ∧
    (pollSnapshot pads snap i).pressed_bits = (snap i).pressed_bits ∧
    (pollSnapshot pads snap i).is_just_pressed b =
      ((pollSnapshot pads snap i).pressed_bits &&&
        compl32 ((pads i).pressed_bits)).testBit b.code := by
  refine ⟨rfl, rfl, ?_⟩
  rw [WGamepad.is_just_pressed,
    and_compl32_testBit_any _ _ _ (Button.code_lt b), and_shift_bne, and_shift_beq]
  rfl

/-! ## Claim C6 -/

/-- A backend-information record for exhibiting the deadzone-table slip: the
four stick axes have distinct codes 0-3 and pairwise distinct deadzones. -/
def infoAxes : GilrsInfo where
  axis_code := fun _ a =>
    match a with
    | .LeftStickX => some 0
    | .LeftStickY => some 1
    | .RightStickX => some 2
    | .RightStickY => some 3
    | _ => none
  deadzone := fun _ c =>
    match c with
    | 0 => some 10
    | 1 => some 11
    | 2 => some 12
    | 3 => some 13
    | _ => none

/-- C6 fails on the code: on a `Connected` event, entry 2 of the deadzone
table (the right-stick-x entry) receives the backend deadzone of
`RightStickY` (code 3, here 13) instead of the backend deadzone of
`RightStickX` (code 2, here 12); the other entries are as specified. -/
theorem connect_deadzone_axis_mismatch :
    (poll (initState infoAxes) [⟨5, .Connected⟩]).deadzones 0 2 =
        (infoAxes.deadzone 5 3).getD 0 ∧
      (poll (initState infoAxes) [⟨5, .Connected⟩]).deadzones 0 2 = 13 ∧
      ¬ (poll (initState infoAxes) [⟨5, .Connected⟩]).deadzones 0 2 =
        (infoAxes.deadzone 5 ((infoAxes.axis_code 5 .RightStickX).getD 0)).getD 0 ∧
      (poll (initState infoAxes) [⟨5, .Connected⟩]).deadzones 0 0 = 10 ∧
      (poll (initState infoAxes) [⟨5, .Connected⟩]).deadzones 0 1 = 11 ∧
      (poll (initState infoAxes) [⟨5, .Connected⟩]).deadzones 0 3 = 13 := by
  refine ⟨by decide, by decide, by decide, by decide, by decide, by decide⟩

/-! ## Claim C7 -/

theorem dzfold_instance (gid : Nat) (gi : Fin 8) :
    ∀ (l : List (Fin 4 × GAxis)) (t : State),
      (l.foldl (storeDeadzone gid gi) t).gilrs_instance = t.gilrs_instance := by
  intro l
  induction l with
  | nil => intro t; rfl
  | cons za l ih =>
    intro t
    rw [List.foldl_cons, ih, storeDeadzone_instance]

theorem processEvent_instance (t : State) (e : GEvent) :
    (processEvent t e).gilrs_instance = t.gilrs_instance := by
  obtain ⟨eid, ev⟩ := e
  have hfi := find_or_insert_instance t eid
  cases ev with
  | Other => rfl
  | Connected =>
    simp only [processEvent]
    cases hfio : find_or_insert t eid with
    | mk o s1 =>
      have h1 : s1.gilrs_instance = t.gilrs_instance := by rw [← hfi, hfio]
      cases o with
      | none => exact h1
      | some gi => dsimp only; rw [dzfold_instance]; exact h1
  | Disconnected =>
    simp only [processEvent]
    cases hfio : find_or_insert t eid with
    | mk o s1 =>
      have h1 : s1.gilrs_instance = t.gilrs_instance := by rw [← hfi, hfio]
      cases o with
      | none => exact h1
      | some gi => exact h1
  | ButtonPressed gb =>
    simp only [processEvent]
    cases hfio : find_or_insert t eid with
    | mk o s1 =>
      have h1 : s1.gilrs_instance = t.gilrs_instance := by rw [← hfi, hfio]
      cases o with
      | none => exact h1
      | some gi => dsimp only; cases Button.from_gilrs gb <;> exact h1
  | ButtonReleased gb =>
    simp only [processEvent]
    cases hfio : find_or_insert t eid with
    | mk o s1 =>
      have h1 : s1.gilrs_instance = t.gilrs_instance := by rw [← hfi, hfio]
      cases o with
      | none => exact h1
      | some gi => dsimp only; cases Button.from_gilrs gb <;> exact h1
  | AxisChanged ax v =>
    simp only [processEvent]
    cases hfio : find_or_insert t eid with
    | mk o s1 =>
      have h1 : s1.gilrs_instance = t.gilrs_instance := by rw [← hfi, hfio]
      cases o with
      | none => exact h1
      | some gi => dsimp only; cases axisIndex ax <;> exact h1

theorem processEvents_instance (l : List GEvent) :
    ∀ (t : State), (processEvents t l).gilrs_instance = t.gilrs_instance := by
  induction l with
  | nil => intro t; rfl
  | cons e l ih =>
    intro t
    rw [processEvents_cons, ih, processEvent_instance]

theorem poll_instance (t : State) (evs : List GEvent) :
    (poll t evs).gilrs_instance = t.gilrs_instance := by
  rw [poll, processEvents_instance]
  rfl

theorem newFold_instance (l : List (Nat × Bool)) :
    ∀ (t : State),
      (l.foldl (fun t p =>
        match find_or_insert t p.1 with
        | (some i, t1) => setPad t1 i { t1.gamepads i with connected := p.2 }
        | (none, t1) => t1) t).gilrs_instance = t.gilrs_instance := by
  induction l with
  | nil => intro t; rfl
  | cons p l ih =>
    intro t
    rw [List.foldl_cons, ih]
    have hfi := find_or_insert_instance t p.1
    cases hfio : find_or_insert t p.1 with
    | mk o t1 =>
      have h1 : t1.gilrs_instance = t.gilrs_instance := by rw [← hfi, hfio]
      cases o with
      | none => exact h1
      | some i => exact h1

theorem new_instance (info : GilrsInfo) (init_events : List GEvent)
    (initial_pads : List (Nat × Bool)) :
    (new info init_events initial_pads).gilrs_instance = info := by
  rw [new]
  rw [newFold_instance, poll_instance]
  rfl

theorem rumbleState_instance (s : State) (a b c : Nat) (ok : Bool) (eff : Nat) :
    (rumbleState s a b c ok eff).gilrs_instance = s.gilrs_instance := rfl

/-- Every deadzone the backend reports (with the `unwrap_or_default` fallback
applied) is below 1. -/
def InfoBounded (info : GilrsInfo) : Prop :=
  ∀ gid code, ((info.deadzone gid code).getD 0) < 1

/-- Every stored deadzone is below 1. -/
def DeadzonesBounded (s : State) : Prop :=
  ∀ (i : Fin 8) (j : Fin 4), s.deadzones i j < 1

theorem storeDeadzone_bounded {t : State} {gid : Nat} {gi : Fin 8}
    {za : Fin 4 × GAxis} (hb : InfoBounded t.gilrs_instance)
    (hd : DeadzonesBounded t) : DeadzonesBounded (storeDeadzone gid gi t za) := by
  rw [storeDeadzone]
  cases hcode : t.gilrs_instance.axis_code gid za.2 with
  | none => exact hd
  | some code =>
    intro i j
    dsimp only
    rw [Function.update_apply]
    by_cases hi : i = gi
    · rw [if_pos hi, Function.update_apply]
      by_cases hj : j = za.1
      · rw [if_pos hj]
        exact hb gid code
      · rw [if_neg hj]
        exact hd gi j
    · rw [if_neg hi]
      exact hd i j

theorem dzfold_bounded {gid : Nat} {gi : Fin 8} (l : List (Fin 4 × GAxis)) :
    ∀ (t : State), InfoBounded t.gilrs_instance → DeadzonesBounded t →
      DeadzonesBounded (l.foldl (storeDeadzone gid gi) t) := by
  induction l with
  | nil => intro t _ hd; exact hd
  | cons za l ih =>
    intro t hb hd
    rw [List.foldl_cons]
    refine ih _ ?_ (storeDeadzone_bounded hb hd)
    rw [storeDeadzone_instance]
    exact hb

theorem processEvent_bounded {t : State} {e : GEvent}
    (hb : InfoBounded t.gilrs_instance) (hd : DeadzonesBounded t) :
    DeadzonesBounded (processEvent t e) := by
  obtain ⟨eid, ev⟩ := e
  have hdzp := find_or_insert_deadzones t eid
  have hip := find_or_insert_instance t eid
  cases ev with
  | Other => exact hd
  | Connected =>
    simp only [processEvent]
    cases hfio : find_or_insert t eid with
    | mk o s1 =>
      have h1 : s1.deadzones = t.deadzones := by rw [← hdzp, hfio]
      have h2 : s1.gilrs_instance = t.gilrs_instance := by rw [← hip, hfio]
      cases o with
      | none => intro i j; rw [h1]; exact hd i j
      | some gi =>
        dsimp only
        refine dzfold_bounded _ _ ?_ ?_
        · rw [setPad_instance, h2]
          exact hb
        · intro i j
          rw [setPad_deadzones, h1]
          exact hd i j
  | Disconnected =>
    simp only [processEvent]
    cases hfio : find_or_insert t eid with
    | mk o s1 =>
      have h1 : s1.deadzones = t.deadzones := by rw [← hdzp, hfio]
      cases o with
      | none => intro i j; rw [h1]; exact hd i j
      | some gi => intro i j; rw [setPad_deadzones, h1]; exact hd i j
  | ButtonPressed gb =>
    simp only [processEvent]
    cases hfio : find_or_insert t eid with
    | mk o s1 =>
      have h1 : s1.deadzones = t.deadzones := by rw [← hdzp, hfio]
      cases o with
      | none => intro i j; rw [h1]; exact hd i j
      | some gi =>
        dsimp only
        cases Button.from_gilrs gb with
        | none => intro i j; rw [h1]; exact hd i j
        | some b => intro i j; rw [setPad_deadzones, h1]; exact hd i j
  | ButtonReleased gb =>
    simp only [processEvent]
    cases hfio : find_or_insert t eid with
    | mk o s1 =>
      have h1 : s1.deadzones = t.deadzones := by rw [← hdzp, hfio]
      cases o with
      | none => intro i j; rw [h1]; exact hd i j
      | some gi =>
        dsimp only
        cases Button.from_gilrs gb with
        | none => intro i j; rw [h1]; exact hd i j
        | some b => intro i j; rw [setPad_deadzones, h1]; exact hd i j
  | AxisChanged ax v =>
    simp only [processEvent]
    cases hfio : find_or_insert t eid with
    | mk o s1 =>
      have h1 : s1.deadzones = t.deadzones := by rw [← hdzp, hfio]
      cases o with
      | none => intro i j; rw [h1]; exact hd i j
      | some gi =>
        dsimp only
        cases axisIndex ax with
        | none => intro i j; rw [h1]; exact hd i j
        | some ai => intro i j; rw [setPad_deadzones, h1]; exact hd i j

theorem processEvents_bounded (l : List GEvent) :
    ∀ (t : State), InfoBounded t.gilrs_instance → DeadzonesBounded t →
      DeadzonesBounded (processEvents t l) := by
  induction l with
  | nil => intro t _ hd; exact hd
  | cons e l ih =>
    intro t hb hd
    rw [processEvents_cons]
    refine ih _ ?_ (processEvent_bounded hb hd)
    rw [processEvent_instance]
    exact hb

theorem poll_bounded {t : State} {evs : List GEvent}
    (hb : InfoBounded t.gilrs_instance) (hd : DeadzonesBounded t) :
    DeadzonesBounded (poll t evs) :=
  processEvents_bounded evs (beginTick t) hb hd

theorem newFold_deadzones (l : List (Nat × Bool)) :
    ∀ (t : State),
      (l.foldl (fun t p =>
        match find_or_insert t p.1 with
        | (some i, t1) => setPad t1 i { t1.gamepads i with connected := p.2 }
        | (none, t1) => t1) t).deadzones = t.deadzones := by
  induction l with
  | nil => intro t; rfl
  | cons p l ih =>
    intro t
    rw [List.foldl_cons, ih]
    have hfd := find_or_insert_deadzones t p.1
    cases hfio : find_or_insert t p.1 with
    | mk o t1 =>
      have h1 : t1.deadzones = t.deadzones := by rw [← hfd, hfio]
      cases o with
      | none => exact h1
      | some i => rw [setPad_deadzones]; exact h1

theorem initState_bounded (info : GilrsInfo) : DeadzonesBounded (initState info) := by
  intro i j
  norm_num [initState]

theorem reachable_deadzones_bounded {s : State} (hs : Reachable s) :
    InfoBounded s.gilrs_instance → DeadzonesBounded s := by
  induction hs with
  | new info ie ip =>
    intro hb
    rw [new_instance] at hb
    intro i j
    rw [new, newFold_deadzones]
    refine poll_bounded ?_ (initState_bounded info) i j
    exact hb
  | poll s evs hs ih =>
    intro hb
    rw [poll_instance] at hb
    exact poll_bounded hb (ih hb)
  | rumble s a b c ok eff hs ih =>
    intro hb
    exact ih hb

/-- A backend-information record reporting a deadzone of exactly 1 for every
axis (code 0 on every axis). -/
def infoDeadzoneOne : GilrsInfo where
  axis_code := fun _ _ => some 0
  deadzone := fun _ _ => some 1

/-- Counterexample to C7 as stated: the code performs no clamping.  A backend
reporting deadzone 1.0 leads to a reachable state whose stored deadzone is
exactly 1 (not strictly below 1), making the normalization divisor
`1 - deadzone` zero. -/
theorem deadzone_clamping_counterexample :
    Reachable (new infoDeadzoneOne [⟨5, .Connected⟩] []) ∧
    (new infoDeadzoneOne [⟨5, .Connected⟩] []).deadzones 0 0 = 1 ∧
    ¬ (new infoDeadzoneOne [⟨5, .Connected⟩] []).deadzones 0 0 < 1 ∧
    (1 : ℚ) - (new infoDeadzoneOne [⟨5, .Connected⟩] []).deadzones 0 0 = 0 := by
  have h1 : (new infoDeadzoneOne [⟨5, .Connected⟩] []).deadzones 0 0 = 1 := by decide
  exact ⟨Reachable.new _ _ _, h1, by decide, by rw [h1]; norm_num⟩

/-- C7 amended: the stored deadzone is the backend's report unchanged, with
no clamping; the divisor `1 - deadzone` is nonzero exactly as long as the
backend never reports a deadzone of 1 or more (with the 0 fallback), which
keeps every stored deadzone strictly below 1 in every reachable state. -/
theorem deadzone_divisor_amended (s : State) (hs : Reachable s)
    (hb : InfoBounded s.gilrs_instance) (i : Fin 8) (j : Fin 4) :
    s.deadzones i j < 1 ∧ (1 : ℚ) - s.deadzones i j ≠ 0 := by
  have hd := reachable_deadzones_bounded hs hb i j
  refine ⟨hd, fun hc => ?_⟩
  have h1 : (1 : ℚ) = s.deadzones i j := by linarith
  rw [← h1] at hd
  exact lt_irrefl 1 hd

/-- Witness for the amended C7 on the sample state (whose backend reports no
deadzones at all, so the 0 default applies). -/
theorem deadzone_divisor_amended_witness :
    Reachable sampleState ∧ InfoBounded sampleState.gilrs_instance ∧
      (sampleState.deadzones 0 0 < 1 ∧ (1 : ℚ) - sampleState.deadzones 0 0 ≠ 0) := by
  have hreach : Reachable sampleState := Reachable.new infoNone [⟨5, .Connected⟩] []
  have hb : InfoBounded sampleState.gilrs_instance := by
    have hinst : sampleState.gilrs_instance = infoNone := rfl
    rw [hinst]
    intro gid code
    norm_num [infoNone]
  exact ⟨hreach, hb, deadzone_divisor_amended sampleState hreach hb 0 0⟩

/-! ## Claim C9 -/

/-- A fresh android/winit backend state (all slots free, zeroed pads). -/
def initAState : AState where
  gamepads := fun idx =>
    { id := idx.val
      connected := false
      pressed_bits := 0
      axes := fun _ => 0
      just_pressed_bits := 0 }
  android_winit_gamepad_ids := fun _ => USIZE_MAX
  num_connected_pads := 0

/-- C9 fails on the code: both D-pad triples read `values[0]`, so the second
raw value never drives the up/down pair.  With `values = [0, -1, 2, 3, 4, 5]`
the claim requires `DPadUp` to be pressed (second value negative), but the
code clears both vertical bits (first value zero); and a negative first
value drives both `DPadLeft` and `DPadUp`.  The four further values are
copied into the axis array as claimed. -/
theorem axis_update_second_value_ignored :
    ((onAxisUpdate initAState 7 [0, -1, 2, 3, 4, 5]).gamepads 0).is_currently_pressed
        .DPadUp = false ∧
    ((onAxisUpdate initAState 7 [0, -1, 2, 3, 4, 5]).gamepads 0).is_just_pressed
        .DPadUp = false ∧
    ((onAxisUpdate initAState 7 [0, -1, 2, 3, 4, 5]).gamepads 0).pressed_bits = 0 ∧
    ((onAxisUpdate initAState 7 [-1, 1, 2, 3, 4, 5]).gamepads 0).is_currently_pressed
        .DPadLeft = true ∧
    ((onAxisUpdate initAState 7 [-1, 1, 2, 3, 4, 5]).gamepads 0).is_currently_pressed
        .DPadUp = true ∧
    ((onAxisUpdate initAState 7 [-1, 1, 2, 3, 4, 5]).gamepads 0).is_currently_pressed
        .DPadDown = false ∧
    ((onAxisUpdate initAState 7 [0, -1, 2, 3, 4, 5]).gamepads 0).axes 0 = 2 ∧
    ((onAxisUpdate initAState 7 [0, -1, 2, 3, 4, 5]).gamepads 0).axes 1 = 3 ∧
    ((onAxisUpdate initAState 7 [0, -1, 2, 3, 4, 5]).gamepads 0).axes 2 = 4 ∧
    ((onAxisUpdate initAState 7 [0, -1, 2, 3, 4, 5]).gamepads 0).axes 3 = 5 := by
  refine ⟨by decide, by decide, by decide, by decide, by decide, by decide,
    by decide, by decide, by decide, by decide⟩

/-! ## Claim C8 -/

theorem listGetD_eq {l : List (Nat × Nat)} {i : Nat} (h : i < l.length) :
    l.getD i (0, 0) = l[i] := by
  rw [List.getD_eq_getElem?_getD, List.getElem?_eq_getElem h]
  rfl

theorem swapRemove_length {l : List (Nat × Nat)} {i : Nat} :
    (swapRemove l i).length = l.length - 1 := by
  rw [swapRemove, List.length_dropLast, List.length_set]

theorem swapRemove_getElem {l : List (Nat × Nat)} {i : Nat} {j : Nat}
    (hj : j < (swapRemove l i).length) :
    (swapRemove l i)[j] = if i = j then l.getD (l.length - 1) (0, 0)
      else l.getD j (0, 0) := by
  have hjl : j < l.length := by rw [swapRemove_length] at hj; omega
  have hj2 : j < ((l.set i (l.getD (l.length - 1) (0, 0))).dropLast).length := hj
  have h1 : (swapRemove l i)[j] =
      ((l.set i (l.getD (l.length - 1) (0, 0))).dropLast).get ⟨j, hj2⟩ := rfl
  rw [h1, List.get_eq_getElem, List.getElem_dropLast, List.getElem_set, listGetD_eq hjl]

theorem mem_swapRemove_of_ne {l : List (Nat × Nat)} {i : Nat} (hi : i < l.length)
    {x : Nat × Nat} (hx : x ∈ l) (hne : x ≠ l.getD i (0, 0)) : x ∈ swapRemove l i := by
  obtain ⟨j, hj, hxj⟩ := List.mem_iff_getElem.mp hx
  have hji : j ≠ i := by
    intro hc
    subst hc
    exact hne (by rw [listGetD_eq hj, hxj])
  by_cases hlast : j = l.length - 1
  · subst hlast
    have hil : i < l.length - 1 := by omega
    refine List.mem_iff_getElem.mpr ⟨i, ?_, ?_⟩
    · rw [swapRemove_length]
      exact hil
    · rw [swapRemove_getElem, if_pos rfl, listGetD_eq (by omega)]
      exact hxj
  · have hjl : j < l.length - 1 := by omega
    refine List.mem_iff_getElem.mpr ⟨j, ?_, ?_⟩
    · rw [swapRemove_length]
      exact hjl
    · rw [swapRemove_getElem, if_neg (fun hc => hji hc.symm), listGetD_eq (by omega)]
      exact hxj

theorem purgeGo_sound (now_ms : Nat) :
    ∀ (c : Nat) (l : List (Nat × Nat)), c ≤ l.length →
      (∀ (j : Nat) (hj : j < l.length), c ≤ j → now_ms ≤ (l[j]).2) →
      ∀ x ∈ purgeGo now_ms c l, now_ms ≤ x.2 := by
  intro c
  induction c with
  | zero =>
    intro l _ hrest x hx
    obtain ⟨j, hj, hxj⟩ := List.mem_iff_getElem.mp hx
    rw [← hxj]
    exact hrest j hj (Nat.zero_le j)
  | succ c ih =>
    intro l hlen hrest x hx
    rw [purgeGo] at hx
    have hc : c < l.length := hlen
    by_cases hcond : (l.getD c (0, 0)).2 < now_ms
    · rw [if_pos hcond] at hx
      have hc1 : c < l.length - 1 ∨ c = l.length - 1 := by omega
      refine ih (swapRemove l c) ?_ ?_ x hx
      · rw [swapRemove_length]; omega
      · intro j hj hcj
        rw [swapRemove_length] at hj
        rw [swapRemove_getElem (by rw [swapRemove_length]; exact hj)]
        by_cases hcjeq : c = j
        · rw [if_pos hcjeq]
          rw [listGetD_eq (by omega)]
          exact hrest (l.length - 1) (by omega) (by omega)
        · rw [if_neg hcjeq, listGetD_eq (by omega)]
          exact hrest j (by omega) (by omega)
    · rw [if_neg hcond] at hx
      refine ih l (by omega) ?_ x hx
      intro j hj hcj
      by_cases hcjeq : j = c
      · subst hcjeq
        rw [← listGetD_eq hj]
        omega
      · exact hrest j hj (by omega)

theorem purgeGo_complete (now_ms : Nat) :
    ∀ (c : Nat) (l : List (Nat × Nat)), c ≤ l.length →
      ∀ x ∈ l, now_ms ≤ x.2 → x ∈ purgeGo now_ms c l := by
  intro c
  induction c with
  | zero => intro l _ x hx _; exact hx
  | succ c ih =>
    intro l hlen x hx hxe
    rw [purgeGo]
    have hc : c < l.length := hlen
    by_cases hcond : (l.getD c (0, 0)).2 < now_ms
    · rw [if_pos hcond]
      have hne : x ≠ l.getD c (0, 0) := by
        intro hc2
        rw [← hc2] at hcond
        omega
      refine ih (swapRemove l c) ?_ x (mem_swapRemove_of_ne hc hx hne) hxe
      rw [swapRemove_length]
      omega
    · rw [if_neg hcond]
      exact ih l (by omega) x hx hxe

theorem purgeExpired_sound {l : List (Nat × Nat)} {now_ms : Nat} :
    ∀ x ∈ purgeExpired l now_ms, now_ms ≤ x.2 := by
  intro x hx
  exact purgeGo_sound now_ms l.length l (le_refl _)
    (fun j hj hcj => absurd hj (by omega)) x hx

theorem purgeExpired_complete {l : List (Nat × Nat)} {now_ms : Nat} :
    ∀ x ∈ l, now_ms ≤ x.2 → x ∈ purgeExpired l now_ms := by
  intro x hx hxe
  exact purgeGo_complete now_ms l.length l (le_refl _) x hx hxe

/-- Counterexample to C8 as stated: the purge condition is strict
(`expiry < now`), so a rumble call at exactly the expiry time retains the
effect; only a call strictly after the expiry purges it. -/
theorem rumble_expiry_boundary_counterexample :
    (0, 500) ∈ rumbleEffects [(0, 500)] 500 100 0 false 7 ∧
    rumbleEffects [(0, 500)] 500 100 0 false 7 = [(0, 500)] ∧
    rumbleEffects [(0, 500)] 501 100 0 false 7 = [] := by
  refine ⟨by decide, by decide, by decide⟩

/-- C8 amended: a successfully submitted rumble effect is retained with
expiry `now + duration_ms + start_delay_ms`; it survives every rumble call
issued at a time less than or equal to its expiry (including a call at the
expiry time itself), and it is purged by the first rumble call issued
strictly after its expiry. -/
theorem rumble_effect_lifecycle_amended
    (l : List (Nat × Nat)) (now_ms duration_ms start_delay_ms : Nat) (effect : Nat) :
    ((effect, now_ms + duration_ms + start_delay_ms) ∈
      rumbleEffects l now_ms duration_ms start_delay_ms true effect) ∧
    (∀ x ∈ l, ∀ now2 dur2 delay2 ok2 eff2, now2 ≤ x.2 →
      x ∈ rumbleEffects l now2 dur2 delay2 ok2 eff2) ∧
    (∀ x ∈ l, ∀ now2 dur2 delay2 ok2 eff2, x.2 < now2 →
      x ∉ rumbleEffects l now2 dur2 delay2 ok2 eff2) := by
  refine ⟨?_, ?_, ?_⟩
  · rw [rumbleEffects]
    simp
  · intro x hx now2 dur2 delay2 ok2 eff2 hle
    rw [rumbleEffects]
    have hmem := purgeExpired_complete x hx hle
    cases ok2 with
    | true => simp only [if_pos]; exact List.mem_append.mpr (Or.inl hmem)
    | false => simpa using hmem
  · intro x hx now2 dur2 delay2 ok2 eff2 hlt hmem
    rw [rumbleEffects] at hmem
    cases ok2 with
    | true =>
      simp only [if_pos] at hmem
      rcases List.mem_append.mp hmem with hm | hm
      · exact absurd (purgeExpired_sound x hm) (by omega)
      · have hxeq : x = (eff2, now2 + dur2 + delay2) := by simpa using hm
        have : x.2 = now2 + dur2 + delay2 := by rw [hxeq]
        omega
    | false =>
      have hm : x ∈ purgeExpired l now2 := by simpa using hmem
      exact absurd (purgeExpired_sound x hm) (by omega)

/-- Witness for the amended C8: an effect with expiry 100 survives a call at
time 100 and is purged by a call at time 101; a submission at time 50 with
duration 10 and delay 5 is retained with expiry 65. -/
theorem rumble_effect_lifecycle_amended_witness :
    ((7, 50 + 10 + 5) ∈ rumbleEffects [(3, 100)] 50 10 5 true 7) ∧
    (3, 100) ∈ rumbleEffects [(3, 100)] 100 20 0 false 9 ∧
    (3, 100) ∉ rumbleEffects [(3, 100)] 101 20 0 false 9 := by
  have h := rumble_effect_lifecycle_amended [(3, 100)] 50 10 5 7
  exact ⟨h.1,
    h.2.1 (3, 100) (by decide) 100 20 0 false 9 (by decide),
    h.2.2 (3, 100) (by decide) 101 20 0 false 9 (by decide)⟩

/-! ## Claim C10 -/

theorem processEvent_padId (t : State) (e : GEvent) (i : Fin 8) :
    ((processEvent t e).gamepads i).id = (t.gamepads i).id := by
  obtain ⟨eid, ev⟩ := e
  cases ev with
  | Other => rfl
  | Connected =>
    simp only [processEvent]
    cases hfio : find_or_insert t eid with
    | mk o s1 =>
      have hg : s1.gamepads = t.gamepads := find_or_insert_pair_gamepads hfio
      cases o with
      | none => dsimp only; rw [hg]
      | some gi =>
        dsimp only
        rw [dzfold_gamepads, setPad_gamepads_apply]
        by_cases hi : i = gi
        · subst hi; rw [if_pos rfl]; dsimp only; rw [hg]
        · rw [if_neg hi, hg]
  | Disconnected =>
    simp only [processEvent]
    cases hfio : find_or_insert t eid with
    | mk o s1 =>
      have hg : s1.gamepads = t.gamepads := find_or_insert_pair_gamepads hfio
      cases o with
      | none => dsimp only; rw [hg]
      | some gi =>
        dsimp only
        rw [setPad_gamepads_apply]
        by_cases hi : i = gi
        · subst hi; rw [if_pos rfl]; dsimp only; rw [hg]
        · rw [if_neg hi, hg]
  | ButtonPressed gb =>
    simp only [processEvent]
    cases hfio : find_or_insert t eid with
    | mk o s1 =>
      have hg : s1.gamepads = t.gamepads := find_or_insert_pair_gamepads hfio
      cases o with
      | none => dsimp only; rw [hg]
      | some gi =>
        dsimp only
        cases hmap : Button.from_gilrs gb with
        | none => rw [hg]
        | some b2 =>
          rw [setPad_gamepads_apply]
          by_cases hi : i = gi
          · subst hi; rw [if_pos rfl]; dsimp only; rw [hg]
          · rw [if_neg hi, hg]
  | ButtonReleased gb =>
    simp only [processEvent]
    cases hfio : find_or_insert t eid with
    | mk o s1 =>
      have hg : s1.gamepads = t.gamepads := find_or_insert_pair_gamepads hfio
      cases o with
      | none => dsimp only; rw [hg]
      | some gi =>
        dsimp only
        cases hmap : Button.from_gilrs gb with
        | none => rw [hg]
        | some b2 =>
          rw [setPad_gamepads_apply]
          by_cases hi : i = gi
          · subst hi; rw [if_pos rfl]; dsimp only; rw [hg]
          · rw [if_neg hi, hg]
  | AxisChanged ax v =>
    simp only [processEvent]
    cases hfio : find_or_insert t eid with
    | mk o s1 =>
      have hg : s1.gamepads = t.gamepads := find_or_insert_pair_gamepads hfio
      cases o with
      | none => dsimp only; rw [hg]
      | some gi =>
        dsimp only
        cases hmap : axisIndex ax with
        | none => rw [hg]
        | some ai =>
          dsimp only
          rw [setPad_gamepads_apply]
          by_cases hi : i = gi
          · subst hi; rw [if_pos rfl]; dsimp only; rw [hg]
          · rw [if_neg hi, hg]

theorem processEvents_padId (l : List GEvent) :
    ∀ (t : State) (i : Fin 8), ((processEvents t l).gamepads i).id = (t.gamepads i).id := by
  induction l with
  | nil => intro t i; rfl
  | cons e l ih =>
    intro t i
    rw [processEvents_cons, ih, processEvent_padId]

theorem poll_padId (t : State) (evs : List GEvent) (i : Fin 8) :
    ((poll t evs).gamepads i).id = (t.gamepads i).id := by
  rw [poll, processEvents_padId]
  rfl

theorem newFold_padId (l : List (Nat × Bool)) :
    ∀ (t : State) (i : Fin 8),
      ((l.foldl (fun t p =>
        match find_or_insert t p.1 with
        | (some i, t1) => setPad t1 i { t1.gamepads i with connected := p.2 }
        | (none, t1) => t1) t).gamepads i).id = (t.gamepads i).id := by
  induction l with
  | nil => intro t i; rfl
  | cons p l ih =>
    intro t i
    rw [List.foldl_cons, ih]
    cases hfio : find_or_insert t p.1 with
    | mk o t1 =>
      have hg : t1.gamepads = t.gamepads := find_or_insert_pair_gamepads hfio
      cases o with
      | none => rw [hg]
      | some j =>
        rw [setPad_gamepads_apply]
        by_cases hi : i = j
        · subst hi; rw [if_pos rfl]; dsimp only; rw [hg]
        · rw [if_neg hi, hg]

theorem reachable_padIds {s : State} (hs : Reachable s) :
    ∀ i : Fin 8, (s.gamepads i).id = i.val := by
  induction hs with
  | new info ie ip =>
    intro i
    rw [new, newFold_padId, poll_padId]
    rfl
  | poll s evs hs ih =>
    intro i
    rw [poll_padId]
    exact ih i
  | rumble s a b c ok eff hs ih =>
    intro i
    exact ih i

/-- C10: in every reachable state, a gamepad's id equals its slot index and
is below 8; it is unchanged by any further poll; `Gamepads::get` applied to
any id obtained from the library indexes in bounds (never panics) and
returns the gamepad exactly when the slot's connected flag is set; every
gamepad listed by `Gamepads::all` can be fetched back by its id. -/
theorem gamepad_id_slot_safety (s : State) (hs : Reachable s) :
    (∀ i : Fin 8, (s.gamepads i).id = i.val ∧ (s.gamepads i).id < MAX_GAMEPADS ∧
      get s ((s.gamepads i).id) =
        Except.ok (if (s.gamepads i).connected then some (s.gamepads i) else none)) ∧
    (∀ g ∈ allPads s, g.id < MAX_GAMEPADS ∧ get s g.id = Except.ok (some g)) ∧
    (∀ (evs : List GEvent) (i : Fin 8),
      ((poll s evs).gamepads i).id = (s.gamepads i).id) := by
  have hid := reachable_padIds hs
  have hmain : ∀ i : Fin 8, (s.gamepads i).id = i.val ∧
      (s.gamepads i).id < MAX_GAMEPADS ∧
      get s ((s.gamepads i).id) =
        Except.ok (if (s.gamepads i).connected then some (s.gamepads i) else none) := by
    intro i
    have h8 : (s.gamepads i).id < MAX_GAMEPADS := by
      rw [hid i]
      exact i.isLt
    refine ⟨hid i, h8, ?_⟩
    rw [get, dif_pos h8]
    have hfin : (⟨(s.gamepads i).id, h8⟩ : Fin 8) = i := Fin.ext (hid i)
    rw [hfin]
  refine ⟨hmain, ?_, fun evs i => poll_padId s evs i⟩
  intro g hg
  rw [allPads, List.mem_filter] at hg
  obtain ⟨hgmem, hgconn⟩ := hg
  obtain ⟨i, -, hgi⟩ := List.mem_map.mp hgmem
  obtain ⟨-, h8, hget⟩ := hmain i
  rw [hgi] at h8 hget
  refine ⟨h8, ?_⟩
  rw [hget, if_pos hgconn]

/-- Witness for C10 on the sample state. -/
theorem gamepad_id_slot_safety_witness :
    Reachable sampleState ∧
      ((sampleState.gamepads 0).id = 0 ∧
        (sampleState.gamepads 0).id < MAX_GAMEPADS ∧
        get sampleState ((sampleState.gamepads 0).id) =
          Except.ok (if (sampleState.gamepads 0).connected
            then some (sampleState.gamepads 0) else none)) := by
  have hreach : Reachable sampleState := Reachable.new infoNone [⟨5, .Connected⟩] []
  have h := (gamepad_id_slot_safety sampleState hreach).1 0
  exact ⟨hreach, h⟩

end Gamepads
